import Mathlib

/-!
# MythicContainer: gRPC translation-container session core and payload-build wrapper

A shallow embedding of `grpc/initialize.go` (the reconnect supervisor `Initialize` and the
three stream workers `handleGenerateKeys`, `handleCustomToMythicFormat`,
`handleMythicToCustomFormat`) and of `rabbitmq/recv_pt_build.go` (`WrapPayloadBuild`).

Modelling conventions.

* A worker goroutine is a step function on its program counter. One step performs at most
  one blocking call (stream open, stream send, stream receive, channel send, `wg.Done`);
  the answer of the transport to that call is supplied from outside as a `Transport` value.
* Logging calls have no effect on control flow or on any sent value and are left out.
* The handler registry `translationstructs.AllTranslationData` is read as a function from a
  container name to the bundle `Get(name).GetPayloadDefinition()`; a capability that is `nil`
  in Go is `none`.
* `encoding/json`, `mapstructure`, the upload helper and the RabbitMQ publisher are library
  code outside the two source files and are taken as parameters.
* Byte slices are lists of bytes; a `nil` slice and an empty slice are both `[]`.
  A Go pointer `*[]byte` is an `Option`.
-/

namespace MythicContainer

abbrev Bytes := List UInt8

/-! ## Wire messages (package `services`, generated from the protobuf definitions) -/

namespace services

structure TrGenerateEncryptionKeysMessage where
  TranslationContainerName : String
  C2Name : String
  CryptoParamValue : String
  CryptoParamName : String
deriving DecidableEq, Repr

structure TrGenerateEncryptionKeysMessageResponse where
  Success : Bool
  Error : String
  EncryptionKey : Bytes
  DecryptionKey : Bytes
  TranslationContainerName : String
deriving DecidableEq, Repr

structure CryptoKeysFormat where
  EncKey : Bytes
  DecKey : Bytes
  Value : String
deriving DecidableEq, Repr

structure TrCustomMessageToMythicC2FormatMessage where
  TranslationContainerName : String
  C2Name : String
  Message : Bytes
  UUID : String
  MythicEncrypts : Bool
  CryptoKeys : List CryptoKeysFormat
deriving DecidableEq, Repr

structure TrCustomMessageToMythicC2FormatMessageResponse where
  Success : Bool
  Error : String
  Message : Bytes
  TranslationContainerName : String
deriving DecidableEq, Repr

structure TrMythicC2ToCustomMessageFormatMessage where
  TranslationContainerName : String
  C2Name : String
  Message : Bytes
  UUID : String
  MythicEncrypts : Bool
  CryptoKeys : List CryptoKeysFormat
deriving DecidableEq, Repr

structure TrMythicC2ToCustomMessageFormatMessageResponse where
  Success : Bool
  Error : String
  Message : Bytes
  TranslationContainerName : String
deriving DecidableEq, Repr

end services

/-! ## Handler-side messages (package `translationstructs`) -/

namespace translationstructs

structure CryptoKeys where
  EncKey : Option Bytes
  DecKey : Option Bytes
  Value : String
deriving DecidableEq, Repr

structure TrGenerateEncryptionKeysMessage where
  TranslationContainerName : String
  C2Name : String
  CryptoParamValue : String
  CryptoParamName : String
deriving DecidableEq, Repr

structure TrGenerateEncryptionKeysMessageResponse where
  Success : Bool
  Error : String
  EncryptionKey : Option Bytes
  DecryptionKey : Option Bytes
deriving DecidableEq, Repr

structure TrCustomMessageToMythicC2FormatMessage where
  TranslationContainerName : String
  C2Name : String
  Message : Bytes
  UUID : String
  MythicEncrypts : Bool
  CryptoKeys : List CryptoKeys
deriving DecidableEq, Repr

/-- Result of a custom-to-Mythic translation; `Message` is the structured value
    (`map[string]interface{}`) that the worker serialises with `json.Marshal`. -/
structure TrCustomMessageToMythicC2FormatMessageResponse (J : Type) where
  Success : Bool
  Error : String
  Message : J

/-- Argument of a Mythic-to-custom translation; `Message` is the map the worker obtained
    from `json.Unmarshal`. -/
structure TrMythicC2ToCustomMessageFormatMessage (J : Type) where
  TranslationContainerName : String
  C2Name : String
  Message : J
  UUID : String
  MythicEncrypts : Bool
  CryptoKeys : List CryptoKeys

structure TrMythicC2ToCustomMessageFormatMessageResponse where
  Success : Bool
  Error : String
  Message : Bytes
deriving DecidableEq, Repr

/-- The handler bundle `GetPayloadDefinition()` of one registered container name.
    Each capability is an optional callback (`nil` in Go is `none`). -/
structure TranslationContainer (J : Type) where
  GenerateEncryptionKeys :
    Option (TrGenerateEncryptionKeysMessage → TrGenerateEncryptionKeysMessageResponse)
  TranslateCustomToMythicFormat :
    Option (TrCustomMessageToMythicC2FormatMessage →
      TrCustomMessageToMythicC2FormatMessageResponse J)
  TranslateMythicToCustomFormat :
    Option (TrMythicC2ToCustomMessageFormatMessage J →
      TrMythicC2ToCustomMessageFormatMessageResponse)

end translationstructs

/-- The registry `translationstructs.AllTranslationData`, read through
    `Get(name).GetPayloadDefinition()`. -/
abbrev Registry (J : Type) := String → translationstructs.TranslationContainer J

/-- The part of `encoding/json` the workers call, over the type `J` of decoded JSON maps.
    `Marshal` returns the bytes or the text of the error (`err.Error()`);
    `Unmarshal data m` returns the map as left by `json.Unmarshal(data, &m)` together with
    the error text, if any. -/
structure JsonLib (J : Type) where
  emptyMap : J
  Marshal : J → Except String Bytes
  Unmarshal : Bytes → J → J × Option String

/-! ## Worker control state -/

/-- Result of one `stream.Recv()`. -/
inductive RecvResult (Req : Type) where
  | msg (input : Req)
  | eof
  | err
deriving DecidableEq, Repr

/-- Answers of the transport to the blocking call a worker makes in one step: whether the
    stream open fails, whether the stream send fails, and what the receive returns.
    A step reads only the field of the call it makes. -/
structure Transport (Req : Type) where
  openErr : Bool
  sendErr : Bool
  recv : RecvResult Req

/-- Program counter of a stream worker.
    `openStream`: at the top of the outer `for`, about to open the stream;
    `handshake`: stream open, about to send the handshake;
    `recv`: in the inner `for`, about to call `stream.Recv()`;
    `respond r`: handler has run, about to call `stream.Send(&r)`;
    `signal`: about to execute `closedConnection <- true`;
    `exiting`: at `return`, the deferred `wg.Done()` still to run;
    `returned`: the goroutine has ended. -/
inductive WorkerPc (Resp : Type) where
  | openStream
  | handshake
  | recv
  | respond (sendResp : Resp)
  | signal
  | exiting
  | returned
deriving DecidableEq, Repr

/-- Observable action of a worker step. -/
inductive Action (Resp : Type) where
  | openStream
  | send (m : Resp)
  | recv
  | call (containerName : String)
  | shutdown
  | done
deriving DecidableEq, Repr

/-! ## `handleGenerateKeys` -/

/-- One step of `handleGenerateKeys`. -/
def handleGenerateKeys {J : Type} (AllTranslationData : Registry J)
    (translationContainerName : String)
    (pc : WorkerPc services.TrGenerateEncryptionKeysMessageResponse)
    (t : Transport services.TrGenerateEncryptionKeysMessage) :
    WorkerPc services.TrGenerateEncryptionKeysMessageResponse ×
      List (Action services.TrGenerateEncryptionKeysMessageResponse) :=
  match pc with
  | .openStream =>
    if t.openErr then (.signal, [.openStream]) else (.handshake, [.openStream])
  | .handshake =>
    let hello : services.TrGenerateEncryptionKeysMessageResponse :=
      { Success := false, Error := "", EncryptionKey := [], DecryptionKey := [],
        TranslationContainerName := translationContainerName }
    if t.sendErr then (.signal, [.send hello]) else (.recv, [.send hello])
  | .recv =>
    match t.recv with
    | .eof => (.openStream, [.recv])
    | .err => (.openStream, [.recv])
    | .msg input =>
      match (AllTranslationData input.TranslationContainerName).GenerateEncryptionKeys with
      | some GenerateEncryptionKeys =>
        let response := GenerateEncryptionKeys
          { TranslationContainerName := input.TranslationContainerName,
            C2Name := input.C2Name,
            CryptoParamValue := input.CryptoParamValue,
            CryptoParamName := input.CryptoParamName }
        let sendResp : services.TrGenerateEncryptionKeysMessageResponse :=
          { Success := response.Success,
            Error := response.Error,
            EncryptionKey := [],
            DecryptionKey := [],
            TranslationContainerName := input.TranslationContainerName }
        let sendResp :=
          match response.EncryptionKey with
          | some k => { sendResp with EncryptionKey := k }
          | none => sendResp
        let sendResp :=
          match response.DecryptionKey with
          | some k => { sendResp with DecryptionKey := k }
          | none => sendResp
        (.respond sendResp, [.recv, .call input.TranslationContainerName])
      | none => (.signal, [.recv])
  | .respond sendResp =>
    if t.sendErr then (.openStream, [.send sendResp]) else (.recv, [.send sendResp])
  | .signal => (.exiting, [.shutdown])
  | .exiting => (.returned, [.done])
  | .returned => (.returned, [])

/-! ## `handleCustomToMythicFormat` -/

/-- The conversion loop over `input.GetCryptoKeys()` shared by both translation workers:
    every wire key triple becomes a handler-side triple with both key pointers set. -/
def convertCryptoKeys (grpcCryptoKeys : List services.CryptoKeysFormat) :
    List translationstructs.CryptoKeys :=
  grpcCryptoKeys.map fun k =>
    { DecKey := some k.DecKey, EncKey := some k.EncKey, Value := k.Value }

/-- One step of `handleCustomToMythicFormat`. -/
def handleCustomToMythicFormat {J : Type} (json : JsonLib J) (AllTranslationData : Registry J)
    (translationContainerName : String)
    (pc : WorkerPc services.TrCustomMessageToMythicC2FormatMessageResponse)
    (t : Transport services.TrCustomMessageToMythicC2FormatMessage) :
    WorkerPc services.TrCustomMessageToMythicC2FormatMessageResponse ×
      List (Action services.TrCustomMessageToMythicC2FormatMessageResponse) :=
  match pc with
  | .openStream =>
    if t.openErr then (.signal, [.openStream]) else (.handshake, [.openStream])
  | .handshake =>
    let hello : services.TrCustomMessageToMythicC2FormatMessageResponse :=
      { Success := false, Error := "", Message := [],
        TranslationContainerName := translationContainerName }
    if t.sendErr then (.signal, [.send hello]) else (.recv, [.send hello])
  | .recv =>
    match t.recv with
    | .eof => (.openStream, [.recv])
    | .err => (.openStream, [.recv])
    | .msg input =>
      match (AllTranslationData input.TranslationContainerName).TranslateCustomToMythicFormat with
      | some TranslateCustomToMythicFormat =>
        let sendMsg : translationstructs.TrCustomMessageToMythicC2FormatMessage :=
          { TranslationContainerName := input.TranslationContainerName,
            C2Name := input.C2Name,
            Message := input.Message,
            UUID := input.UUID,
            MythicEncrypts := input.MythicEncrypts,
            CryptoKeys := convertCryptoKeys input.CryptoKeys }
        let response := TranslateCustomToMythicFormat sendMsg
        let sendResp : services.TrCustomMessageToMythicC2FormatMessageResponse :=
          { Success := response.Success,
            Error := response.Error,
            Message := [],
            TranslationContainerName := input.TranslationContainerName }
        let sendResp :=
          match json.Marshal response.Message with
          | .error err => { sendResp with Success := false, Error := err }
          | .ok messageBytes => { sendResp with Message := messageBytes }
        (.respond sendResp, [.recv, .call input.TranslationContainerName])
      | none => (.signal, [.recv])
  | .respond sendResp =>
    if t.sendErr then (.openStream, [.send sendResp]) else (.recv, [.send sendResp])
  | .signal => (.exiting, [.shutdown])
  | .exiting => (.returned, [.done])
  | .returned => (.returned, [])

/-! ## `handleMythicToCustomFormat` -/

/-- One step of `handleMythicToCustomFormat`. -/
def handleMythicToCustomFormat {J : Type} (json : JsonLib J) (AllTranslationData : Registry J)
    (translationContainerName : String)
    (pc : WorkerPc services.TrMythicC2ToCustomMessageFormatMessageResponse)
    (t : Transport services.TrMythicC2ToCustomMessageFormatMessage) :
    WorkerPc services.TrMythicC2ToCustomMessageFormatMessageResponse ×
      List (Action services.TrMythicC2ToCustomMessageFormatMessageResponse) :=
  match pc with
  | .openStream =>
    if t.openErr then (.signal, [.openStream]) else (.handshake, [.openStream])
  | .handshake =>
    let hello : services.TrMythicC2ToCustomMessageFormatMessageResponse :=
      { Success := false, Error := "", Message := [],
        TranslationContainerName := translationContainerName }
    if t.sendErr then (.signal, [.send hello]) else (.recv, [.send hello])
  | .recv =>
    match t.recv with
    | .eof => (.openStream, [.recv])
    | .err => (.openStream, [.recv])
    | .msg input =>
      match (AllTranslationData input.TranslationContainerName).TranslateMythicToCustomFormat with
      | some TranslateMythicToCustomFormat =>
        let messageMap := json.emptyMap
        -- both branches of the error test on `json.Unmarshal` store the map in `sendMsg`
        let messageMap := (json.Unmarshal input.Message messageMap).1
        let sendMsg : translationstructs.TrMythicC2ToCustomMessageFormatMessage J :=
          { TranslationContainerName := input.TranslationContainerName,
            C2Name := input.C2Name,
            UUID := input.UUID,
            MythicEncrypts := input.MythicEncrypts,
            Message := messageMap,
            CryptoKeys := convertCryptoKeys input.CryptoKeys }
        let response := TranslateMythicToCustomFormat sendMsg
        let sendResp : services.TrMythicC2ToCustomMessageFormatMessageResponse :=
          { Success := response.Success,
            Error := response.Error,
            TranslationContainerName := input.TranslationContainerName,
            Message := response.Message }
        (.respond sendResp, [.recv, .call input.TranslationContainerName])
      | none => (.signal, [.recv])
  | .respond sendResp =>
    if t.sendErr then (.openStream, [.send sendResp]) else (.recv, [.send sendResp])
  | .signal => (.exiting, [.shutdown])
  | .exiting => (.returned, [.done])
  | .returned => (.returned, [])

/-! ## Running one worker against a sequence of transport answers -/

/-- Iterate a worker step function over the answers `ts`, collecting the actions in order. -/
def runWorker {Req Resp : Type}
    (step : WorkerPc Resp → Transport Req → WorkerPc Resp × List (Action Resp)) :
    WorkerPc Resp → List (Transport Req) → WorkerPc Resp × List (Action Resp)
  | pc, [] => (pc, [])
  | pc, t :: ts =>
    let r := step pc t
    let r2 := runWorker step r.1 ts
    (r2.1, r.2 ++ r2.2)

/-! ## Durations (package `time`) -/

namespace time

/-- A `time.Duration` is a signed 64-bit count of nanoseconds. -/
abbrev Duration := Int

/-- Wrap an integer into the signed 64-bit range. -/
def wrapInt64 (x : Int) : Int := (x + 2 ^ 63) % 2 ^ 64 - 2 ^ 63

/-- Multiplication of two `Duration` values in signed 64-bit arithmetic. -/
def mul (a b : Duration) : Duration := wrapInt64 (a * b)

def Nanosecond : Duration := 1
def Microsecond : Duration := mul 1000 Nanosecond
def Millisecond : Duration := mul 1000 Microsecond
def Second : Duration := mul 1000 Millisecond

end time

/-- The constant `grpcReconnectDelay = 5 * time.Second`. -/
def grpcReconnectDelay : time.Duration := time.mul 5 time.Second

/-- The argument of `time.Sleep` at the end of the loop body of `Initialize`:
    `grpcReconnectDelay * time.Second`. -/
def reconnectSleep : time.Duration := time.mul grpcReconnectDelay time.Second

/-! ## `Initialize`: the supervisor and its three workers as one transition system -/

/-- Program counter of `Initialize`, one value per blocking or spawning statement of the
    loop body. -/
inductive SupPc where
  | dial
  | goGenerateKeys
  | goMythicToCustom
  | goCustomToMythic
  | awaitSignal
  | closeConn
  | wait
  | closeChan
  | sleep
deriving DecidableEq, Repr

/-- Capacity of `closedConnection := make(chan bool, 3)`. -/
def closedConnectionCap : Nat := 3

/-- State shared between the supervisor and the workers.
    `written` and `taken` count the values ever sent to and received from the current
    `closedConnection` channel; `dials` counts the Connections created so far;
    `panicked` records a send on a closed channel or a `wg.Done()` on a zero counter;
    `lastSleep` is the argument of the most recent `time.Sleep` (zero before the first). -/
structure Shared where
  sup : SupPc
  connOpen : Bool
  chanClosed : Bool
  chanLen : Nat
  wg : Nat
  written : Nat
  taken : Nat
  dials : Nat
  panicked : Bool
  lastSleep : time.Duration
deriving DecidableEq, Repr

/-- Whole-system state: the shared part and the goroutine of each capability in the current
    connect cycle (`none`: not started in this cycle). -/
structure Sys where
  sh : Shared
  gen : Option (WorkerPc services.TrGenerateEncryptionKeysMessageResponse)
  m2c : Option (WorkerPc services.TrMythicC2ToCustomMessageFormatMessageResponse)
  c2m : Option (WorkerPc services.TrCustomMessageToMythicC2FormatMessageResponse)
deriving DecidableEq, Repr

/-- What is fixed for a run of `Initialize`. -/
structure Config (J : Type) where
  json : JsonLib J
  AllTranslationData : Registry J
  translationContainerName : String

/-- State at the entry of the `for` loop of `Initialize`. -/
def Sys.init : Sys :=
  { sh := { sup := .dial, connOpen := false, chanClosed := false, chanLen := 0, wg := 0,
            written := 0, taken := 0, dials := 0, panicked := false, lastSleep := 0 },
    gen := none, m2c := none, c2m := none }

/-- One step of `Initialize`. `dialErr` is the outcome of `grpc.Dial` and is read only at
    `dial`. `none` means the supervisor is blocked. -/
def supStep (s : Sys) (dialErr : Bool) : Option Sys :=
  match s.sh.sup with
  | .dial =>
    if dialErr then some { s with sh := { s.sh with sup := .sleep } }
    else
      some { sh := { s.sh with sup := .goGenerateKeys, connOpen := true, chanClosed := false,
                               chanLen := 0, wg := 3, written := 0, taken := 0,
                               dials := s.sh.dials + 1 },
             gen := none, m2c := none, c2m := none }
  | .goGenerateKeys =>
    some { s with sh := { s.sh with sup := .goMythicToCustom }, gen := some .openStream }
  | .goMythicToCustom =>
    some { s with sh := { s.sh with sup := .goCustomToMythic }, m2c := some .openStream }
  | .goCustomToMythic =>
    some { s with sh := { s.sh with sup := .awaitSignal }, c2m := some .openStream }
  | .awaitSignal =>
    if 0 < s.sh.chanLen then
      some { s with sh := { s.sh with sup := .closeConn, chanLen := s.sh.chanLen - 1,
                                      taken := s.sh.taken + 1 } }
    else if s.sh.chanClosed then some { s with sh := { s.sh with sup := .closeConn } }
    else none
  | .closeConn => some { s with sh := { s.sh with sup := .wait, connOpen := false } }
  | .wait => if s.sh.wg = 0 then some { s with sh := { s.sh with sup := .closeChan } } else none
  | .closeChan =>
    if s.sh.chanClosed then some { s with sh := { s.sh with panicked := true } }
    else some { s with sh := { s.sh with sup := .sleep, chanClosed := true } }
  | .sleep => some { s with sh := { s.sh with sup := .dial, lastSleep := reconnectSleep } }

/-- Effect of one worker action on the shared state: `closedConnection <- true` needs room in
    the buffer (else the worker is blocked, `none`) and panics on a closed channel;
    `wg.Done()` decrements the counter and panics at zero. Stream actions leave it alone. -/
def Shared.effect {Resp : Type} (sh : Shared) : Action Resp → Option Shared
  | .shutdown =>
    if sh.chanClosed then some { sh with panicked := true }
    else if sh.chanLen < closedConnectionCap then
      some { sh with chanLen := sh.chanLen + 1, written := sh.written + 1 }
    else none
  | .done =>
    if sh.wg = 0 then some { sh with panicked := true } else some { sh with wg := sh.wg - 1 }
  | _ => some sh

/-- Effects of a list of actions, in order. -/
def Shared.effects {Resp : Type} (sh : Shared) : List (Action Resp) → Option Shared
  | [] => some sh
  | a :: as => (sh.effect a).bind fun sh2 => sh2.effects as

/-- The transport as seen through the Connection: once the Connection is closed every stream
    open and every stream receive fails. -/
def Transport.through {Req : Type} (connOpen : Bool) (t : Transport Req) : Transport Req :=
  if connOpen then t
  else
    { openErr := true, sendErr := t.sendErr,
      recv := match t.recv with
        | .msg _ => .err
        | .eof => .eof
        | .err => .err }

/-- One step of a worker goroutine inside the system. `none`: the goroutine does not exist,
    has ended, or is blocked on the channel. -/
def workerMove {Req Resp : Type}
    (step : WorkerPc Resp → Transport Req → WorkerPc Resp × List (Action Resp))
    (sh : Shared) (slot : Option (WorkerPc Resp)) (t : Transport Req) :
    Option (Shared × WorkerPc Resp) :=
  match slot with
  | none => none
  | some .returned => none
  | some pc =>
    let r := step pc (t.through sh.connOpen)
    (sh.effects r.2).map fun sh2 => (sh2, r.1)

/-- Scheduler choice: which goroutine moves, and the outside answer to its call. -/
inductive Choice where
  | sup (dialErr : Bool)
  | generateKeys (t : Transport services.TrGenerateEncryptionKeysMessage)
  | mythicToCustom (t : Transport services.TrMythicC2ToCustomMessageFormatMessage)
  | customToMythic (t : Transport services.TrCustomMessageToMythicC2FormatMessage)

/-- One step of the system. After a panic nothing moves. -/
def sysStep {J : Type} (cfg : Config J) (s : Sys) (c : Choice) : Option Sys :=
  if s.sh.panicked then none
  else
    match c with
    | .sup dialErr => supStep s dialErr
    | .generateKeys t =>
      (workerMove (handleGenerateKeys cfg.AllTranslationData cfg.translationContainerName)
        s.sh s.gen t).map fun r => { s with sh := r.1, gen := some r.2 }
    | .mythicToCustom t =>
      (workerMove
        (handleMythicToCustomFormat cfg.json cfg.AllTranslationData cfg.translationContainerName)
        s.sh s.m2c t).map fun r => { s with sh := r.1, m2c := some r.2 }
    | .customToMythic t =>
      (workerMove
        (handleCustomToMythicFormat cfg.json cfg.AllTranslationData cfg.translationContainerName)
        s.sh s.c2m t).map fun r => { s with sh := r.1, c2m := some r.2 }

/-- Run a schedule; `none` if some chosen goroutine could not move. -/
def sysRun {J : Type} (cfg : Config J) : Sys → List Choice → Option Sys
  | s, [] => some s
  | s, c :: cs => (sysStep cfg s c).bind fun s2 => sysRun cfg s2 cs

/-- States reachable from the entry of `Initialize`. -/
def Reachable {J : Type} (cfg : Config J) (s : Sys) : Prop :=
  ∃ cs : List Choice, sysRun cfg Sys.init cs = some s

/-! ## `WrapPayloadBuild` (package `rabbitmq`) -/

namespace agentstructs

/-- The decoded build request. Only `PayloadType` is read by `WrapPayloadBuild`; the other
    fields travel in `rest`. -/
structure PayloadBuildMessage (A : Type) where
  PayloadType : String
  rest : A
deriving DecidableEq, Repr

/-- The build result. `WrapPayloadBuild` reads and writes `Success`, `BuildMessage` and
    `Payload` (a `*[]byte`); the other fields travel in `rest`. -/
structure PayloadBuildResponse (B : Type) where
  Success : Bool
  BuildMessage : String
  Payload : Option Bytes
  rest : B
deriving DecidableEq, Repr

end agentstructs

/-- Collaborators of `WrapPayloadBuild`, over the type `V` of decoded JSON values
    (`interface{}`), with `M` the type of `map[string]interface{}`.
    `jsonUnmarshal msg` is `json.Unmarshal(msg, &payloadMsg)` on a fresh empty map;
    it may succeed and leave the map `nil` (the JSON value `null`);
    `mapIndex`, `mapAssign`, `mapLit` are map indexing, map assignment and the one-entry map
    literal; `mapAssign m k v` is `none` when `m` is the `nil` map, where the assignment
    `m[k] = v` panics; `Decode` is `mapstructure.Decode` into a zero `PayloadBuildMessage`;
    `GetBuildFunction name` is `agentstructs.AllPayloadData.Get(name).GetBuildFunction()`;
    `UploadPayloadData` returns the error text on failure; `zeroRest` is the zero value of the
    response fields carried in `rest`. -/
structure BuildEnv (M V A B : Type) where
  jsonUnmarshal : Bytes → Except String M
  mapIndex : M → String → V
  mapAssign : M → String → V → Option M
  mapLit : String → V → V
  Decode : M → Except String (agentstructs.PayloadBuildMessage A)
  GetBuildFunction :
    String → Option (agentstructs.PayloadBuildMessage A → agentstructs.PayloadBuildResponse B)
  UploadPayloadData :
    agentstructs.PayloadBuildMessage A → agentstructs.PayloadBuildResponse B → Option String
  zeroRest : B

/-- Outside effects of `WrapPayloadBuild`: an upload attempt and a publication of the build
    response on the `PT_BUILD_RESPONSE_ROUTING_KEY` routing key. -/
inductive BuildEffect (A B : Type) where
  | upload (msg : agentstructs.PayloadBuildMessage A) (resp : agentstructs.PayloadBuildResponse B)
  | publish (resp : agentstructs.PayloadBuildResponse B)
deriving DecidableEq, Repr

/-- What a call of `WrapPayloadBuild` did: its outside effects in order, and whether it ended
    in a run-time panic instead of returning. -/
structure BuildOutcome (A B : Type) where
  effects : List (BuildEffect A B)
  panicked : Bool
deriving DecidableEq, Repr

/-- The function `WrapPayloadBuild`: what it does on `msg`. -/
def WrapPayloadBuild {M V A B : Type} (env : BuildEnv M V A B) (msg : Bytes) :
    BuildOutcome A B :=
  match env.jsonUnmarshal msg with
  | .error _ => { effects := [], panicked := false }
  | .ok payloadMsg =>
    match env.mapAssign payloadMsg "build_parameters"
      (env.mapLit "build_parameters" (env.mapIndex payloadMsg "build_parameters")) with
    | none => { effects := [], panicked := true }
    | some payloadMsg =>
      match env.Decode payloadMsg with
      | .error _ => { effects := [], panicked := false }
      | .ok payloadBuildMsg =>
        let payloadBuildResponse : agentstructs.PayloadBuildResponse B :=
          match env.GetBuildFunction payloadBuildMsg.PayloadType with
          | none =>
            { Success := false, BuildMessage := "", Payload := none, rest := env.zeroRest }
          | some payloadBuildFunc => payloadBuildFunc payloadBuildMsg
        match payloadBuildResponse.Payload with
        | some _ =>
          match env.UploadPayloadData payloadBuildMsg payloadBuildResponse with
          | some err =>
            { effects :=
                [ .upload payloadBuildMsg payloadBuildResponse,
                  .publish { payloadBuildResponse with
                    BuildMessage := payloadBuildResponse.BuildMessage ++
                      "\nFailed to send payload back to Mythic: " ++ err,
                    Success := false } ],
              panicked := false }
          | none =>
            { effects :=
                [ .upload payloadBuildMsg payloadBuildResponse, .publish payloadBuildResponse ],
              panicked := false }
        | none => { effects := [ .publish payloadBuildResponse ], panicked := false }

/-! ## Concrete inputs used by the closed statements below -/

/-- A JSON library instance over association lists, fixed on the inputs the examples use:
    decoding the empty byte string fails with the decoder's end-of-input error and leaves the
    map untouched; encoding a map that holds the key `chan` fails (an unsupported value). -/
def sampleJson : JsonLib (List (String × String)) :=
  { emptyMap := [],
    Marshal := fun m =>
      if m.any (fun kv => kv.1 == "chan") then .error "json: unsupported type: chan int"
      else .ok [123, 125],
    Unmarshal := fun data m =>
      if data = [] then (m, some "unexpected end of JSON input") else (m, none) }

/-- A registry with the single container name `svc`, all three capabilities set. -/
def sampleRegistry : Registry (List (String × String)) := fun name =>
  if name = "svc" then
    { GenerateEncryptionKeys := some fun _ =>
        { Success := true, Error := "", EncryptionKey := some [1, 2], DecryptionKey := some [3] },
      TranslateCustomToMythicFormat := some fun _ =>
        { Success := true, Error := "", Message := [("chan", "c")] },
      TranslateMythicToCustomFormat := some fun _ =>
        { Success := true, Error := "", Message := [7] } }
  else
    { GenerateEncryptionKeys := none,
      TranslateCustomToMythicFormat := none,
      TranslateMythicToCustomFormat := none }

/-- A key-generation request addressed to `svc`. -/
def sampleKeyRequest : services.TrGenerateEncryptionKeysMessage :=
  { TranslationContainerName := "svc", C2Name := "http", CryptoParamValue := "aes256_hmac",
    CryptoParamName := "AESPSK" }

/-- A custom-to-Mythic request addressed to `svc`. -/
def sampleC2MRequest : services.TrCustomMessageToMythicC2FormatMessage :=
  { TranslationContainerName := "svc", C2Name := "http", Message := [1], UUID := "u",
    MythicEncrypts := true, CryptoKeys := [] }

/-- A Mythic-to-custom request addressed to `svc` whose `Message` is the empty byte string,
    which does not decode as a JSON object. -/
def sampleM2CRequest : services.TrMythicC2ToCustomMessageFormatMessage :=
  { TranslationContainerName := "svc", C2Name := "http", Message := [], UUID := "u",
    MythicEncrypts := true, CryptoKeys := [] }

/-- A transport answer delivering `input` on receive, with no failure. -/
def deliver {Req : Type} (input : Req) : Transport Req :=
  { openErr := false, sendErr := false, recv := .msg input }

/-- A build environment for the examples. A map is `none` when it is the `nil` map. The
    bytes of `null` parse to the `nil` map, the bytes of the empty object to the empty map,
    anything else is a parse error; every map decodes to a request of payload type `demo`,
    for which no build function is registered. -/
def sampleBuildEnv : BuildEnv (Option (List (String × String))) String Unit Unit :=
  { jsonUnmarshal := fun msg =>
      if msg = [110, 117, 108, 108] then .ok none
      else if msg = [123, 125] then .ok (some [])
      else .error "invalid character",
    mapIndex := fun m k =>
      match m with
      | none => ""
      | some kvs => ((kvs.find? fun kv => kv.1 == k).map fun kv => kv.2).getD "",
    mapAssign := fun m k v =>
      match m with
      | none => none
      | some kvs => some (some ((k, v) :: kvs)),
    mapLit := fun k v => k ++ "=" ++ v,
    Decode := fun _ => .ok { PayloadType := "demo", rest := () },
    GetBuildFunction := fun _ => none,
    UploadPayloadData := fun _ _ => none,
    zeroRest := () }

/-- A configuration for the examples: the sample registry under the configured name `svc`. -/
def sampleConfig : Config (List (String × String)) :=
  { json := sampleJson, AllTranslationData := sampleRegistry, translationContainerName := "svc" }

/-- A transport answer in which the stream open fails. -/
def openFails {Req : Type} : Transport Req :=
  { openErr := true, sendErr := false, recv := .err }

/-- A transport answer with no failure and a receive that returns an error (the only receive
    result of a stream that delivers nothing). -/
def quiet {Req : Type} : Transport Req :=
  { openErr := false, sendErr := false, recv := .err }

/-- A schedule of one whole connect cycle up to the completed join: the dial succeeds, the
    three workers are started, the stream open of `handleGenerateKeys` fails and it signals
    and returns; the supervisor takes the signal and closes the Connection; the other two
    workers, which had completed their handshakes, see their receive fail, fail to reopen,
    signal and return; the join completes. -/
def sampleSchedule : List Choice :=
  [ .sup false, .sup false, .sup false, .sup false,
    .mythicToCustom quiet, .mythicToCustom quiet,
    .customToMythic quiet, .customToMythic quiet,
    .generateKeys openFails, .generateKeys quiet, .generateKeys quiet,
    .sup false, .sup false,
    .mythicToCustom quiet, .mythicToCustom quiet, .mythicToCustom quiet, .mythicToCustom quiet,
    .customToMythic quiet, .customToMythic quiet, .customToMythic quiet, .customToMythic quiet,
    .sup false ]

/-- The state at the end of `sampleSchedule`. -/
def sampleJoined : Sys :=
  { sh := { sup := .closeChan, connOpen := false, chanClosed := false, chanLen := 2, wg := 0,
            written := 3, taken := 1, dials := 1, panicked := false, lastSleep := 0 },
    gen := some .returned, m2c := some .returned, c2m := some .returned }

/-! ## Predicates used in the statements about the workers and the system -/

/-- The handshake message of `handleGenerateKeys`: only the container name is set. -/
def helloGenerateKeys (translationContainerName : String) :
    services.TrGenerateEncryptionKeysMessageResponse :=
  { Success := false, Error := "", EncryptionKey := [], DecryptionKey := [],
    TranslationContainerName := translationContainerName }

/-- The handshake message of `handleCustomToMythicFormat`. -/
def helloCustomToMythic (translationContainerName : String) :
    services.TrCustomMessageToMythicC2FormatMessageResponse :=
  { Success := false, Error := "", Message := [],
    TranslationContainerName := translationContainerName }

/-- The handshake message of `handleMythicToCustomFormat`. -/
def helloMythicToCustom (translationContainerName : String) :
    services.TrMythicC2ToCustomMessageFormatMessageResponse :=
  { Success := false, Error := "", Message := [],
    TranslationContainerName := translationContainerName }

/-- Whether an action is the write `closedConnection <- true`. -/
def Action.isShutdown {Resp : Type} : Action Resp → Bool
  | .shutdown => true
  | _ => false

/-- Whether an action is a `stream.Recv()`. -/
def Action.isRecv {Resp : Type} : Action Resp → Bool
  | .recv => true
  | _ => false

/-- The control skeleton of a worker step function `step` whose handshake message is
    `hello`: what each program counter does, with the message handling left open. -/
structure WorkerShape {Req Resp : Type}
    (step : WorkerPc Resp → Transport Req → WorkerPc Resp × List (Action Resp))
    (hello : Resp) : Prop where
  atOpen : ∀ t, step .openStream t
    = (if t.openErr then .signal else .handshake, [.openStream])
  atHandshake : ∀ t, step .handshake t = (if t.sendErr then .signal else .recv, [.send hello])
  atRecvFail : ∀ t, t.recv = .eof ∨ t.recv = .err → step .recv t = (.openStream, [.recv])
  atRecvMsg : ∀ t input, t.recv = .msg input →
    (∃ r c, step .recv t = (.respond r, [.recv, .call c])) ∨ step .recv t = (.signal, [.recv])
  atRespond : ∀ r t, step (.respond r) t
    = (if t.sendErr then .openStream else .recv, [.send r])
  atSignal : ∀ t, step .signal t = (.exiting, [.shutdown])
  atExiting : ∀ t, step .exiting t = (.returned, [.done])
  atReturned : ∀ t, step .returned t = (.returned, [])

/-- Local recovery of a worker: a failed receive (end-of-stream or error) and a failed
    response send lead to the top of the outer loop with no channel write and no return; the
    next call there is the stream open, and after a successful open the handshake send with
    `hello`; and in every run that starts at the top of the outer loop, a receive occurs only
    after a successful open followed by a successful handshake send, which are then the
    first two actions of the run. -/
def RecoversLocally {Req Resp : Type}
    (step : WorkerPc Resp → Transport Req → WorkerPc Resp × List (Action Resp))
    (hello : Resp) : Prop :=
  (∀ t, t.recv = .eof ∨ t.recv = .err → step .recv t = (.openStream, [.recv])) ∧
  (∀ r t, t.sendErr = true → step (.respond r) t = (.openStream, [.send r])) ∧
  (∀ t, step .openStream t = (if t.openErr then .signal else .handshake, [.openStream])) ∧
  (∀ t, step .handshake t = (if t.sendErr then .signal else .recv, [.send hello])) ∧
  (∀ ts, (runWorker step .openStream ts).2.any Action.isRecv = true →
    ∃ t1 t2 rest, ts = t1 :: t2 :: rest ∧ t1.openErr = false ∧ t2.sendErr = false ∧
      (runWorker step .openStream ts).2
        = .openStream :: .send hello :: (runWorker step .recv rest).2)

/-- Coarse phase of a worker slot: not started in this cycle; started and not yet past its
    channel write; past the write with `wg.Done()` outstanding; returned. -/
inductive Phase where
  | notStarted
  | active
  | wrote
  | returned
deriving DecidableEq, Repr

/-- Phase of a worker slot. -/
def phase {Resp : Type} : Option (WorkerPc Resp) → Phase
  | none => .notStarted
  | some .exiting => .wrote
  | some .returned => .returned
  | some _ => .active

/-- Channel writes performed by a worker in the given phase. -/
def Phase.written : Phase → Nat
  | .wrote => 1
  | .returned => 1
  | _ => 0

/-- Contribution of a worker in the given phase to the `WaitGroup` counter. -/
def Phase.pending : Phase → Nat
  | .returned => 0
  | _ => 1

/-- Whether the goroutine exists and has not returned. -/
def Phase.running : Phase → Bool
  | .active => true
  | .wrote => true
  | _ => false

/-- Whether the supervisor is between a successful dial and the end of the teardown. -/
def SupPc.inCycle : SupPc → Bool
  | .dial => false
  | .sleep => false
  | _ => true

/-- Whether the supervisor has taken the signal and not yet finished the teardown. -/
def SupPc.afterSignal : SupPc → Bool
  | .closeConn => true
  | .wait => true
  | .closeChan => true
  | _ => false

/-- The invariant of the system, over the shared state and the phases of the three workers
    (in the order they are started). -/
structure InvP (sh : Shared) (a b c : Phase) : Prop where
  noPanic : sh.panicked = false
  count : sh.written = a.written + b.written + c.written
  buffer : sh.chanLen + sh.taken = sh.written
  cycle : sh.sup.inCycle = true →
    sh.wg = a.pending + b.pending + c.pending ∧ sh.chanClosed = false
  idle : sh.sup.inCycle = false → a.running = false ∧ b.running = false ∧ c.running = false
  startA : sh.sup = .goGenerateKeys → a = .notStarted ∧ b = .notStarted ∧ c = .notStarted
  startB : sh.sup = .goMythicToCustom → b = .notStarted ∧ c = .notStarted
  startC : sh.sup = .goCustomToMythic → c = .notStarted
  takenLe : sh.taken ≤ 1
  takenOne : sh.sup.afterSignal = true → sh.taken = 1
  takenZero : sh.sup.inCycle = true → sh.sup.afterSignal = false → sh.taken = 0
  joined : sh.sup = .closeChan → sh.wg = 0

/-- The invariant on a system state. -/
def Inv (s : Sys) : Prop := InvP s.sh (phase s.gen) (phase s.m2c) (phase s.c2m)

/-- The order of the supervisor statements within one loop iteration after a successful
    dial, as pairs of consecutive program counters, closed by the return to the dial. -/
def supOrder : List (SupPc × SupPc) :=
  [ (.dial, .goGenerateKeys), (.goGenerateKeys, .goMythicToCustom),
    (.goMythicToCustom, .goCustomToMythic), (.goCustomToMythic, .awaitSignal),
    (.awaitSignal, .closeConn), (.closeConn, .wait), (.wait, .closeChan),
    (.closeChan, .sleep), (.sleep, .dial) ]

/-- The moves of one worker as seen on the shared state and on its phase. -/
inductive WMove : Shared → Phase → Shared → Phase → Prop
  | stay (sh : Shared) : WMove sh .active sh .active
  | write (sh : Shared) : sh.chanClosed = false → sh.chanLen < closedConnectionCap →
      WMove sh .active { sh with chanLen := sh.chanLen + 1, written := sh.written + 1 } .wrote
  | writeClosed (sh : Shared) : sh.chanClosed = true →
      WMove sh .active { sh with panicked := true } .wrote
  | done (sh : Shared) : sh.wg ≠ 0 → WMove sh .wrote { sh with wg := sh.wg - 1 } .returned
  | doneZero (sh : Shared) : sh.wg = 0 →
      WMove sh .wrote { sh with panicked := true } .returned

/-- A worker writes to the shutdown channel only at `signal`; the write is followed at once
    by the deferred `wg.Done()` and the end of the goroutine, after which it does nothing;
    so in every run, from any program counter, it writes at most once. -/
def WritesThenReturns {Req Resp : Type}
    (step : WorkerPc Resp → Transport Req → WorkerPc Resp × List (Action Resp)) : Prop :=
  (∀ pc t, (step pc t).2.any Action.isShutdown = true → pc = .signal) ∧
  (∀ t, step .signal t = (.exiting, [.shutdown])) ∧
  (∀ t, step .exiting t = (.returned, [.done])) ∧
  (∀ t, step .returned t = (.returned, [])) ∧
  (∀ ts pc, (runWorker step pc ts).2.countP Action.isShutdown ≤ 1)

/-- No worker goroutine of the current cycle exists that has not returned. -/
def Sys.noneRunning (s : Sys) : Prop :=
  (phase s.gen).running = false ∧ (phase s.m2c).running = false ∧
    (phase s.c2m).running = false

/-- All three worker goroutines of the current cycle have returned. -/
def Sys.allReturned (s : Sys) : Prop :=
  s.gen = some .returned ∧ s.m2c = some .returned ∧ s.c2m = some .returned

/-- The teardown order of `Initialize` at a state `s`.
    (1) Every supervisor step from `s` goes to the next statement in `supOrder`, or from a
    failed dial to the sleep. (2) A successful dial happens only when no worker is running,
    creates a fresh channel and sets the wait-group counter to 3; the three `go` statements
    each start the worker of their capability in a slot that was empty and leave the others
    alone; the receive takes exactly one value; `conn.Close()` closes the Connection;
    `wg.Wait()` and `close(closedConnection)` pass only with all three workers returned.
    (3) Worker steps do not move the supervisor and create no Connection. (4) While the
    supervisor is at the dial or the sleep no worker is running; the same holds whenever the
    channel is closed; and no panic (send on a closed channel, negative wait-group counter,
    double close) has happened. -/
def TeardownOrder {J : Type} (cfg : Config J) (s : Sys) : Prop :=
  (∀ dialErr s2, sysStep cfg s (.sup dialErr) = some s2 →
    ((s.sh.sup, s2.sh.sup) ∈ supOrder ∨
      (dialErr = true ∧ s.sh.sup = .dial ∧ s2.sh.sup = .sleep)) ∧
    (s.sh.sup = .dial → dialErr = false →
      s.noneRunning ∧ s2.sh.sup = .goGenerateKeys ∧ s2.sh.wg = 3 ∧ s2.sh.connOpen = true ∧
      s2.sh.chanClosed = false ∧ s2.sh.chanLen = 0 ∧ s2.sh.dials = s.sh.dials + 1 ∧
      s2.gen = none ∧ s2.m2c = none ∧ s2.c2m = none) ∧
    (s.sh.sup = .goGenerateKeys →
      s.gen = none ∧ s2.gen = some .openStream ∧ s2.m2c = s.m2c ∧ s2.c2m = s.c2m) ∧
    (s.sh.sup = .goMythicToCustom →
      s.m2c = none ∧ s2.m2c = some .openStream ∧ s2.gen = s.gen ∧ s2.c2m = s.c2m) ∧
    (s.sh.sup = .goCustomToMythic →
      s.c2m = none ∧ s2.c2m = some .openStream ∧ s2.gen = s.gen ∧ s2.m2c = s.m2c) ∧
    (s.sh.sup = .awaitSignal →
      s.sh.taken = 0 ∧ s2.sh.taken = 1 ∧ s2.sh.chanLen + 1 = s.sh.chanLen ∧
      s2.sh.connOpen = s.sh.connOpen) ∧
    (s.sh.sup = .closeConn → s2.sh.connOpen = false) ∧
    (s.sh.sup = .wait → s.allReturned ∧ s2.sh.chanClosed = false) ∧
    (s.sh.sup = .closeChan → s.allReturned ∧ s2.sh.chanClosed = true) ∧
    (s.sh.sup ≠ .dial → s2.sh.dials = s.sh.dials)) ∧
  (∀ t s2, sysStep cfg s (.generateKeys t) = some s2 →
    s2.sh.sup = s.sh.sup ∧ s2.sh.dials = s.sh.dials) ∧
  (∀ t s2, sysStep cfg s (.mythicToCustom t) = some s2 →
    s2.sh.sup = s.sh.sup ∧ s2.sh.dials = s.sh.dials) ∧
  (∀ t s2, sysStep cfg s (.customToMythic t) = some s2 →
    s2.sh.sup = s.sh.sup ∧ s2.sh.dials = s.sh.dials) ∧
  (s.sh.sup = .dial ∨ s.sh.sup = .sleep → s.noneRunning) ∧
  (s.sh.chanClosed = true → s.noneRunning) ∧
  s.sh.panicked = false

/-- The capacity property of `closedConnection` at a state `s`: each worker writes at most
    once and returns right after; the values ever written to the channel of the current
    cycle and the values buffered in it never exceed its capacity 3, with at most one of them
    taken by the supervisor; a worker at its channel write can always perform it (it is
    neither blocked nor does it hit a closed channel), and a worker past its write can always
    perform `wg.Done()` and return. -/
def ChannelNeverBlocks {J : Type} (cfg : Config J) (s : Sys) : Prop :=
  WritesThenReturns (handleGenerateKeys cfg.AllTranslationData cfg.translationContainerName) ∧
  WritesThenReturns
    (handleMythicToCustomFormat cfg.json cfg.AllTranslationData cfg.translationContainerName) ∧
  WritesThenReturns
    (handleCustomToMythicFormat cfg.json cfg.AllTranslationData cfg.translationContainerName) ∧
  closedConnectionCap = 3 ∧
  s.sh.written ≤ closedConnectionCap ∧
  s.sh.chanLen ≤ closedConnectionCap ∧
  s.sh.taken ≤ 1 ∧
  (∀ t, s.gen = some .signal →
    ∃ s2, sysStep cfg s (.generateKeys t) = some s2 ∧ s2.gen = some .exiting ∧
      s2.sh.written = s.sh.written + 1 ∧ s2.sh.chanLen = s.sh.chanLen + 1 ∧
      s2.sh.panicked = false) ∧
  (∀ t, s.m2c = some .signal →
    ∃ s2, sysStep cfg s (.mythicToCustom t) = some s2 ∧ s2.m2c = some .exiting ∧
      s2.sh.written = s.sh.written + 1 ∧ s2.sh.chanLen = s.sh.chanLen + 1 ∧
      s2.sh.panicked = false) ∧
  (∀ t, s.c2m = some .signal →
    ∃ s2, sysStep cfg s (.customToMythic t) = some s2 ∧ s2.c2m = some .exiting ∧
      s2.sh.written = s.sh.written + 1 ∧ s2.sh.chanLen = s.sh.chanLen + 1 ∧
      s2.sh.panicked = false) ∧
  (∀ t, s.gen = some .exiting →
    ∃ s2, sysStep cfg s (.generateKeys t) = some s2 ∧ s2.gen = some .returned ∧
      s2.sh.wg + 1 = s.sh.wg ∧ s2.sh.panicked = false) ∧
  (∀ t, s.m2c = some .exiting →
    ∃ s2, sysStep cfg s (.mythicToCustom t) = some s2 ∧ s2.m2c = some .returned ∧
      s2.sh.wg + 1 = s.sh.wg ∧ s2.sh.panicked = false) ∧
  (∀ t, s.c2m = some .exiting →
    ∃ s2, sysStep cfg s (.customToMythic t) = some s2 ∧ s2.c2m = some .returned ∧
      s2.sh.wg + 1 = s.sh.wg ∧ s2.sh.panicked = false)

/-- The state after the first nine choices of `sampleSchedule`: all three workers started,
    the two translation workers waiting in their receive, `handleGenerateKeys` at its channel
    write after the failed stream open, the supervisor waiting for the signal. -/
def sampleSignalling : Sys :=
  { sh := { sup := .awaitSignal, connOpen := true, chanClosed := false, chanLen := 0, wg := 3,
            written := 0, taken := 0, dials := 1, panicked := false, lastSleep := 0 },
    gen := some .signal, m2c := some .recv, c2m := some .recv }

/-! ## Message step of `handleGenerateKeys` -/

/-- C1: for a received key-generation request whose declared container name has a
    `GenerateEncryptionKeys` handler registered, the worker calls that handler on the copied
    request fields and the response it then sends has `Success` and `Error` equal to the
    handler result, `TranslationContainerName` equal to the request's declared name, and each
    key field equal to the bytes the handler returned (empty for a nil pointer); with
    `Success = true` and both keys present, the response carries `Success = true` and both
    keys. -/
theorem generateKeys_response_from_handler {J : Type} (AllTranslationData : Registry J)
    (translationContainerName : String)
    (t : Transport services.TrGenerateEncryptionKeysMessage)
    (input : services.TrGenerateEncryptionKeysMessage)
    (handler : translationstructs.TrGenerateEncryptionKeysMessage →
      translationstructs.TrGenerateEncryptionKeysMessageResponse)
    (response : translationstructs.TrGenerateEncryptionKeysMessageResponse)
    (hrecv : t.recv = .msg input)
    (hreg : (AllTranslationData input.TranslationContainerName).GenerateEncryptionKeys
      = some handler)
    (hresp : handler
      { TranslationContainerName := input.TranslationContainerName, C2Name := input.C2Name,
        CryptoParamValue := input.CryptoParamValue, CryptoParamName := input.CryptoParamName }
      = response) :
    ∃ sendResp : services.TrGenerateEncryptionKeysMessageResponse,
      handleGenerateKeys AllTranslationData translationContainerName .recv t
        = (.respond sendResp, [.recv, .call input.TranslationContainerName]) ∧
      (∀ t2, (handleGenerateKeys AllTranslationData translationContainerName
        (.respond sendResp) t2).2 = [.send sendResp]) ∧
      sendResp.Success = response.Success ∧
      sendResp.Error = response.Error ∧
      sendResp.TranslationContainerName = input.TranslationContainerName ∧
      sendResp.EncryptionKey = response.EncryptionKey.getD [] ∧
      sendResp.DecryptionKey = response.DecryptionKey.getD [] ∧
      (∀ ek dk, response.Success = true → response.EncryptionKey = some ek →
        response.DecryptionKey = some dk →
        sendResp.Success = true ∧ sendResp.EncryptionKey = ek ∧ sendResp.DecryptionKey = dk) := by
  simp only [handleGenerateKeys, hrecv, hreg, hresp]
  rcases response with ⟨s, e, ek, dk⟩
  cases ek <;> cases dk <;>
    refine ⟨_, rfl, fun t2 => ?_, ?_⟩ <;>
    first
      | (cases t2.sendErr <;> rfl)
      | simp

/-- C1 at a concrete request: the handler of `svc` is called and its keys are sent. -/
theorem generateKeys_response_from_handler_witness :
    ∃ sendResp : services.TrGenerateEncryptionKeysMessageResponse,
      handleGenerateKeys sampleRegistry "svc" .recv (deliver sampleKeyRequest)
        = (.respond sendResp, [.recv, .call "svc"]) ∧
      (∀ t2, (handleGenerateKeys sampleRegistry "svc" (.respond sendResp) t2).2
        = [.send sendResp]) ∧
      sendResp.Success = true ∧
      sendResp.Error = "" ∧
      sendResp.TranslationContainerName = "svc" ∧
      sendResp.EncryptionKey = [1, 2] ∧
      sendResp.DecryptionKey = [3] ∧
      (∀ ek dk, true = true → some ([1, 2] : Bytes) = some ek → some ([3] : Bytes) = some dk →
        sendResp.Success = true ∧ sendResp.EncryptionKey = ek ∧ sendResp.DecryptionKey = dk) :=
  generateKeys_response_from_handler sampleRegistry "svc" (deliver sampleKeyRequest)
    sampleKeyRequest
    (fun _ => { Success := true, Error := "", EncryptionKey := some [1, 2],
                DecryptionKey := some [3] })
    { Success := true, Error := "", EncryptionKey := some [1, 2], DecryptionKey := some [3] }
    rfl rfl rfl

/-! ## Message step of `handleCustomToMythicFormat` -/

/-- C2: for a received custom-to-Mythic request with a registered handler, when
    `json.Marshal` of the handler's result `Message` fails with error text `err`, the
    response sent has `Success = false` and `Error = err` (non-empty, as every error text of
    the JSON encoder is), whatever the handler returned; neither step writes to the shutdown
    channel, and when the send succeeds the worker is back at the receive of its inner loop
    without opening a stream. -/
theorem customToMythic_marshal_failure_forces_error {J : Type} (json : JsonLib J)
    (AllTranslationData : Registry J) (translationContainerName : String)
    (t : Transport services.TrCustomMessageToMythicC2FormatMessage)
    (input : services.TrCustomMessageToMythicC2FormatMessage)
    (handler : translationstructs.TrCustomMessageToMythicC2FormatMessage →
      translationstructs.TrCustomMessageToMythicC2FormatMessageResponse J)
    (err : String)
    (hrecv : t.recv = .msg input)
    (hreg : (AllTranslationData input.TranslationContainerName).TranslateCustomToMythicFormat
      = some handler)
    (hfail : json.Marshal (handler
      { TranslationContainerName := input.TranslationContainerName, C2Name := input.C2Name,
        Message := input.Message, UUID := input.UUID, MythicEncrypts := input.MythicEncrypts,
        CryptoKeys := convertCryptoKeys input.CryptoKeys }).Message = .error err)
    (hlib : ∀ v e, json.Marshal v = .error e → e ≠ "") :
    ∃ sendResp : services.TrCustomMessageToMythicC2FormatMessageResponse,
      handleCustomToMythicFormat json AllTranslationData translationContainerName .recv t
        = (.respond sendResp, [.recv, .call input.TranslationContainerName]) ∧
      sendResp.Success = false ∧
      sendResp.Error = err ∧
      sendResp.Error ≠ "" ∧
      sendResp.TranslationContainerName = input.TranslationContainerName ∧
      (∀ t2, (handleCustomToMythicFormat json AllTranslationData translationContainerName
        (.respond sendResp) t2).2 = [.send sendResp]) ∧
      (∀ t2, t2.sendErr = false →
        (handleCustomToMythicFormat json AllTranslationData translationContainerName
          (.respond sendResp) t2).1 = .recv) := by
  have hne : err ≠ "" := hlib _ _ hfail
  simp only [handleCustomToMythicFormat, hrecv, hreg, hfail]
  refine ⟨_, rfl, rfl, rfl, hne, rfl, fun t2 => ?_, fun t2 h2 => ?_⟩
  · cases t2.sendErr <;> rfl
  · simp [h2]

/-- C2 at a concrete request: the handler of `svc` reports success but returns a map the
    encoder rejects, and the response carries `Success = false` with the encoder's text. -/
theorem customToMythic_marshal_failure_forces_error_witness :
    ∃ sendResp : services.TrCustomMessageToMythicC2FormatMessageResponse,
      handleCustomToMythicFormat sampleJson sampleRegistry "other" .recv
          (deliver sampleC2MRequest)
        = (.respond sendResp, [.recv, .call "svc"]) ∧
      sendResp.Success = false ∧
      sendResp.Error = "json: unsupported type: chan int" ∧
      sendResp.Error ≠ "" ∧
      sendResp.TranslationContainerName = "svc" ∧
      (∀ t2, (handleCustomToMythicFormat sampleJson sampleRegistry "other"
        (.respond sendResp) t2).2 = [.send sendResp]) ∧
      (∀ t2, t2.sendErr = false →
        (handleCustomToMythicFormat sampleJson sampleRegistry "other"
          (.respond sendResp) t2).1 = .recv) :=
  customToMythic_marshal_failure_forces_error sampleJson sampleRegistry "other"
    (deliver sampleC2MRequest) sampleC2MRequest
    (fun _ => { Success := true, Error := "", Message := [("chan", "c")] })
    "json: unsupported type: chan int" rfl rfl rfl
    (by
      intro v e h
      simp only [sampleJson] at h
      split at h
      · cases h
        decide
      · cases h)

/-! ## Registry lookup by the declared name -/

/-- C3: in each of the three workers, after a successful receive of `input` the worker ends
    at the channel write exactly when the bundle registered under the declared name
    `input.TranslationContainerName` has the capability unset; in that case its whole
    remaining run is the receive, one write to the shutdown channel and the return (no
    handler call, no send); otherwise it calls the handler of that bundle and prepares a
    response from its result. The step is the same for every configured container name. -/
theorem fatal_iff_capability_unset {J : Type} (json : JsonLib J)
    (AllTranslationData : Registry J) (translationContainerName : String) :
    (∀ (t : Transport services.TrGenerateEncryptionKeysMessage) input, t.recv = .msg input →
      (((handleGenerateKeys AllTranslationData translationContainerName .recv t).1 = .signal ↔
          (AllTranslationData input.TranslationContainerName).GenerateEncryptionKeys = none) ∧
        ((AllTranslationData input.TranslationContainerName).GenerateEncryptionKeys = none →
          ∀ t2 t3, runWorker (handleGenerateKeys AllTranslationData translationContainerName)
            .recv [t, t2, t3] = (.returned, [.recv, .shutdown, .done])) ∧
        (∀ h, (AllTranslationData input.TranslationContainerName).GenerateEncryptionKeys
            = some h →
          ∃ r, handleGenerateKeys AllTranslationData translationContainerName .recv t
              = (.respond r, [.recv, .call input.TranslationContainerName]) ∧
            r.Success = (h
              { TranslationContainerName := input.TranslationContainerName,
                C2Name := input.C2Name, CryptoParamValue := input.CryptoParamValue,
                CryptoParamName := input.CryptoParamName }).Success ∧
            r.Error = (h
              { TranslationContainerName := input.TranslationContainerName,
                C2Name := input.C2Name, CryptoParamValue := input.CryptoParamValue,
                CryptoParamName := input.CryptoParamName }).Error) ∧
        (∀ otherName, handleGenerateKeys AllTranslationData otherName .recv t
          = handleGenerateKeys AllTranslationData translationContainerName .recv t))) ∧
    (∀ (t : Transport services.TrMythicC2ToCustomMessageFormatMessage) input,
      t.recv = .msg input →
      (((handleMythicToCustomFormat json AllTranslationData translationContainerName
            .recv t).1 = .signal ↔
          (AllTranslationData input.TranslationContainerName).TranslateMythicToCustomFormat
            = none) ∧
        ((AllTranslationData input.TranslationContainerName).TranslateMythicToCustomFormat
            = none →
          ∀ t2 t3, runWorker
            (handleMythicToCustomFormat json AllTranslationData translationContainerName)
            .recv [t, t2, t3] = (.returned, [.recv, .shutdown, .done])) ∧
        (∀ h, (AllTranslationData input.TranslationContainerName).TranslateMythicToCustomFormat
            = some h →
          ∃ r, handleMythicToCustomFormat json AllTranslationData translationContainerName
                .recv t
              = (.respond r, [.recv, .call input.TranslationContainerName]) ∧
            r.Message = (h
              { TranslationContainerName := input.TranslationContainerName,
                C2Name := input.C2Name,
                Message := (json.Unmarshal input.Message json.emptyMap).1,
                UUID := input.UUID, MythicEncrypts := input.MythicEncrypts,
                CryptoKeys := convertCryptoKeys input.CryptoKeys }).Message) ∧
        (∀ otherName, handleMythicToCustomFormat json AllTranslationData otherName .recv t
          = handleMythicToCustomFormat json AllTranslationData translationContainerName
              .recv t))) ∧
    (∀ (t : Transport services.TrCustomMessageToMythicC2FormatMessage) input,
      t.recv = .msg input →
      (((handleCustomToMythicFormat json AllTranslationData translationContainerName
            .recv t).1 = .signal ↔
          (AllTranslationData input.TranslationContainerName).TranslateCustomToMythicFormat
            = none) ∧
        ((AllTranslationData input.TranslationContainerName).TranslateCustomToMythicFormat
            = none →
          ∀ t2 t3, runWorker
            (handleCustomToMythicFormat json AllTranslationData translationContainerName)
            .recv [t, t2, t3] = (.returned, [.recv, .shutdown, .done])) ∧
        (∀ h, (AllTranslationData input.TranslationContainerName).TranslateCustomToMythicFormat
            = some h →
          ∃ r, handleCustomToMythicFormat json AllTranslationData translationContainerName
                .recv t
              = (.respond r, [.recv, .call input.TranslationContainerName]) ∧
            ∀ bytes, json.Marshal (h
              { TranslationContainerName := input.TranslationContainerName,
                C2Name := input.C2Name, Message := input.Message, UUID := input.UUID,
                MythicEncrypts := input.MythicEncrypts,
                CryptoKeys := convertCryptoKeys input.CryptoKeys }).Message = .ok bytes →
              r.Message = bytes) ∧
        (∀ otherName, handleCustomToMythicFormat json AllTranslationData otherName .recv t
          = handleCustomToMythicFormat json AllTranslationData translationContainerName
              .recv t))) := by
  refine ⟨?_, ?_, ?_⟩
  · intro t input hrecv
    refine ⟨?_, ?_, ?_, ?_⟩
    · cases hreg : (AllTranslationData input.TranslationContainerName).GenerateEncryptionKeys
        <;> simp [handleGenerateKeys, hrecv, hreg]
    · intro hreg t2 t3
      simp [runWorker, handleGenerateKeys, hrecv, hreg]
    · intro h hreg
      simp only [handleGenerateKeys, hrecv, hreg]
      refine ⟨_, rfl, ?_, ?_⟩ <;>
        (generalize h _ = response
         rcases response with ⟨s, e, ek, dk⟩
         cases ek <;> cases dk <;> rfl)
    · intro otherName
      simp only [handleGenerateKeys, hrecv]
  · intro t input hrecv
    refine ⟨?_, ?_, ?_, ?_⟩
    · cases hreg :
        (AllTranslationData input.TranslationContainerName).TranslateMythicToCustomFormat
        <;> simp [handleMythicToCustomFormat, hrecv, hreg]
    · intro hreg t2 t3
      simp [runWorker, handleMythicToCustomFormat, hrecv, hreg]
    · intro h hreg
      simp only [handleMythicToCustomFormat, hrecv, hreg]
      exact ⟨_, rfl, rfl⟩
    · intro otherName
      simp only [handleMythicToCustomFormat, hrecv]
  · intro t input hrecv
    refine ⟨?_, ?_, ?_, ?_⟩
    · cases hreg :
        (AllTranslationData input.TranslationContainerName).TranslateCustomToMythicFormat
        <;> simp [handleCustomToMythicFormat, hrecv, hreg]
    · intro hreg t2 t3
      simp [runWorker, handleCustomToMythicFormat, hrecv, hreg]
    · intro h hreg
      simp only [handleCustomToMythicFormat, hrecv, hreg]
      refine ⟨_, rfl, ?_⟩
      intro bytes hb
      simp only [hb]
    · intro otherName
      simp only [handleCustomToMythicFormat, hrecv]

/-! ## Message step of `handleMythicToCustomFormat` -/

/-- C5, as stated, fails: the request `sampleM2CRequest` has a registered handler and a
    `Message` that does not decode, yet the response prepared for sending has an empty
    `Error` (and `Success = true`): both are the handler's. -/
theorem mythicToCustom_decode_failure_not_in_error :
    (sampleJson.Unmarshal sampleM2CRequest.Message sampleJson.emptyMap).2
      = some "unexpected end of JSON input" ∧
    handleMythicToCustomFormat sampleJson sampleRegistry "svc" .recv (deliver sampleM2CRequest)
      = (.respond { Success := true, Error := "", Message := [7],
                    TranslationContainerName := "svc" },
         [.recv, .call "svc"]) := by
  constructor <;> rfl

/-- C5, amended: for a received Mythic-to-custom request with a registered handler whose
    `Message` bytes fail to decode, the exchange goes on: the handler is called with the map
    as the failed decode left it, no write to the shutdown channel happens, and the response
    sent has exactly the handler's `Success`, `Error` and `Message` together with the
    request's declared name. -/
theorem mythicToCustom_decode_failure_keeps_exchange {J : Type} (json : JsonLib J)
    (AllTranslationData : Registry J) (translationContainerName : String)
    (t : Transport services.TrMythicC2ToCustomMessageFormatMessage)
    (input : services.TrMythicC2ToCustomMessageFormatMessage)
    (handler : translationstructs.TrMythicC2ToCustomMessageFormatMessage J →
      translationstructs.TrMythicC2ToCustomMessageFormatMessageResponse)
    (response : translationstructs.TrMythicC2ToCustomMessageFormatMessageResponse)
    (err : String)
    (hrecv : t.recv = .msg input)
    (hreg : (AllTranslationData input.TranslationContainerName).TranslateMythicToCustomFormat
      = some handler)
    (_hfail : (json.Unmarshal input.Message json.emptyMap).2 = some err)
    (hresp : handler
      { TranslationContainerName := input.TranslationContainerName, C2Name := input.C2Name,
        Message := (json.Unmarshal input.Message json.emptyMap).1, UUID := input.UUID,
        MythicEncrypts := input.MythicEncrypts,
        CryptoKeys := convertCryptoKeys input.CryptoKeys } = response) :
    handleMythicToCustomFormat json AllTranslationData translationContainerName .recv t
      = (.respond { Success := response.Success, Error := response.Error,
                    Message := response.Message,
                    TranslationContainerName := input.TranslationContainerName },
         [.recv, .call input.TranslationContainerName]) ∧
    (∀ r t2, (handleMythicToCustomFormat json AllTranslationData translationContainerName
      (.respond r) t2).2 = [.send r]) ∧
    (∀ r t2, t2.sendErr = false →
      (handleMythicToCustomFormat json AllTranslationData translationContainerName
        (.respond r) t2).1 = .recv) := by
  refine ⟨?_, fun r t2 => ?_, fun r t2 h2 => ?_⟩
  · simp only [handleMythicToCustomFormat, hrecv, hreg, hresp]
  · simp only [handleMythicToCustomFormat]
    cases t2.sendErr <;> rfl
  · simp [handleMythicToCustomFormat, h2]

/-- C5, amended, at the concrete request `sampleM2CRequest`. -/
theorem mythicToCustom_decode_failure_keeps_exchange_witness :
    handleMythicToCustomFormat sampleJson sampleRegistry "svc" .recv (deliver sampleM2CRequest)
      = (.respond { Success := true, Error := "", Message := [7],
                    TranslationContainerName := "svc" },
         [.recv, .call "svc"]) ∧
    (∀ r t2, (handleMythicToCustomFormat sampleJson sampleRegistry "svc"
      (.respond r) t2).2 = [.send r]) ∧
    (∀ r t2, t2.sendErr = false →
      (handleMythicToCustomFormat sampleJson sampleRegistry "svc" (.respond r) t2).1 = .recv) :=
  mythicToCustom_decode_failure_keeps_exchange sampleJson sampleRegistry "svc"
    (deliver sampleM2CRequest) sampleM2CRequest
    (fun _ => { Success := true, Error := "", Message := [7] })
    { Success := true, Error := "", Message := [7] }
    "unexpected end of JSON input" rfl rfl rfl rfl

/-! ## The reconnect delay -/

/-- The value of the sleep argument: `5 * 10^18` nanoseconds. -/
theorem reconnectSleep_eval : reconnectSleep = 5000000000000000000 := by
  norm_num [reconnectSleep, grpcReconnectDelay, time.Second, time.Millisecond,
    time.Microsecond, time.Nanosecond, time.mul, time.wrapInt64]

/-- C6, on the code: after a failed dial, and likewise after a whole teardown, the supervisor
    passes `5 * 10^18` ns to `time.Sleep`; every sleep step passes
    `grpcReconnectDelay * time.Second`, where `grpcReconnectDelay` is already
    `5 * time.Second`; the product does not wrap in signed 64-bit arithmetic, and it is
    neither 25 seconds nor 5 seconds. -/
theorem sleep_duration_on_code :
    (sysRun sampleConfig Sys.init [.sup true, .sup false]).map (fun s => s.sh.lastSleep)
      = some 5000000000000000000 ∧
    (sysRun sampleConfig Sys.init (sampleSchedule ++ [.sup false, .sup false])).map
        (fun s => s.sh.lastSleep)
      = some 5000000000000000000 ∧
    (∀ (s s2 : Sys) (dialErr : Bool), s.sh.sup = .sleep → supStep s dialErr = some s2 →
      s2.sh.lastSleep = reconnectSleep) ∧
    reconnectSleep = grpcReconnectDelay * time.Second ∧
    grpcReconnectDelay = 5 * time.Second ∧
    reconnectSleep ≠ 25 * time.Second ∧
    reconnectSleep ≠ 5 * time.Second := by
  have hv := reconnectSleep_eval
  have hs : time.Second = 1000000000 := by
    norm_num [time.Second, time.Millisecond, time.Microsecond, time.Nanosecond, time.mul,
      time.wrapInt64]
  have hg : grpcReconnectDelay = 5000000000 := by
    norm_num [grpcReconnectDelay, hs, time.mul, time.wrapInt64]
  refine ⟨?_, ?_, ?_, ?_, ?_, ?_, ?_⟩
  · simp [sysRun, sysStep, supStep, Sys.init, hv]
  · have h : sysRun sampleConfig Sys.init sampleSchedule = some sampleJoined := by rfl
    have happ : ∀ (cs ds : List Choice) (s : Sys),
        sysRun sampleConfig s (cs ++ ds)
          = (sysRun sampleConfig s cs).bind fun s2 => sysRun sampleConfig s2 ds := by
      intro cs
      induction cs with
      | nil => intro ds s; rfl
      | cons c cs ih =>
        intro ds s
        simp only [List.cons_append, sysRun]
        cases sysStep sampleConfig s c with
        | none => rfl
        | some s1 => exact ih ds s1
    rw [happ, h]
    simp [sysRun, sysStep, supStep, sampleJoined, hv]
  · intro s s2 d hsup hstep
    unfold supStep at hstep
    rw [hsup] at hstep
    cases hstep
    rfl
  · rw [hv, hg, hs]; norm_num
  · rw [hg, hs]; norm_num
  · rw [hv, hs]; norm_num
  · rw [hv, hs]; norm_num

/-! ## `WrapPayloadBuild` -/

/-- On the bytes of JSON `null` the parse succeeds with a `nil` map, the assignment to
    `build_parameters` panics and nothing is published; on the empty object a single response
    with `Success = false` is published. -/
theorem wrapPayloadBuild_null_panics :
    WrapPayloadBuild sampleBuildEnv [110, 117, 108, 108]
      = { effects := [], panicked := true } ∧
    WrapPayloadBuild sampleBuildEnv [123, 125]
      = { effects := [.publish { Success := false, BuildMessage := "", Payload := none,
                                 rest := () }],
          panicked := false } := by
  constructor <;> rfl

/-- C10: on an input that fails to parse or to decode, `WrapPayloadBuild` publishes nothing.
    On an input that parses to `m` and, with `build_parameters` wrapped, decodes to
    `payloadBuildMsg`, it publishes exactly one response and returns: with no build function
    registered for `payloadBuildMsg.PayloadType`, a response with `Success = false` and no
    upload; otherwise the build function's result, unchanged when it has no payload or its
    upload succeeds, and with `Success = false` and the upload error appended to
    `BuildMessage` (all other fields unchanged) when the upload fails. An input that parses
    to the `nil` map is in neither case: the wrapping assignment panics before the decode and
    nothing is published. -/
theorem wrapPayloadBuild_publishes {M V A B : Type} (env : BuildEnv M V A B) (msg : Bytes) :
    (∀ e, env.jsonUnmarshal msg = .error e →
      WrapPayloadBuild env msg = { effects := [], panicked := false }) ∧
    (∀ m, env.jsonUnmarshal msg = .ok m →
      env.mapAssign m "build_parameters"
        (env.mapLit "build_parameters" (env.mapIndex m "build_parameters")) = none →
      WrapPayloadBuild env msg = { effects := [], panicked := true }) ∧
    (∀ m m2 e, env.jsonUnmarshal msg = .ok m →
      env.mapAssign m "build_parameters"
        (env.mapLit "build_parameters" (env.mapIndex m "build_parameters")) = some m2 →
      env.Decode m2 = .error e →
      WrapPayloadBuild env msg = { effects := [], panicked := false }) ∧
    (∀ m m2 payloadBuildMsg, env.jsonUnmarshal msg = .ok m →
      env.mapAssign m "build_parameters"
        (env.mapLit "build_parameters" (env.mapIndex m "build_parameters")) = some m2 →
      env.Decode m2 = .ok payloadBuildMsg →
      (WrapPayloadBuild env msg).panicked = false ∧
      ((WrapPayloadBuild env msg).effects.filter
          (fun e => match e with
            | .publish _ => true
            | .upload _ _ => false)).length = 1 ∧
      (env.GetBuildFunction payloadBuildMsg.PayloadType = none →
        ∃ r, (WrapPayloadBuild env msg).effects = [.publish r] ∧ r.Success = false) ∧
      (∀ build, env.GetBuildFunction payloadBuildMsg.PayloadType = some build →
        ((build payloadBuildMsg).Payload = none →
          (WrapPayloadBuild env msg).effects = [.publish (build payloadBuildMsg)]) ∧
        (∀ p, (build payloadBuildMsg).Payload = some p →
          env.UploadPayloadData payloadBuildMsg (build payloadBuildMsg) = none →
          (WrapPayloadBuild env msg).effects =
            [.upload payloadBuildMsg (build payloadBuildMsg),
             .publish (build payloadBuildMsg)]) ∧
        (∀ p e, (build payloadBuildMsg).Payload = some p →
          env.UploadPayloadData payloadBuildMsg (build payloadBuildMsg) = some e →
          (WrapPayloadBuild env msg).effects =
            [.upload payloadBuildMsg (build payloadBuildMsg),
             .publish
               { Success := false,
                 BuildMessage := (build payloadBuildMsg).BuildMessage ++
                   "\nFailed to send payload back to Mythic: " ++ e,
                 Payload := (build payloadBuildMsg).Payload,
                 rest := (build payloadBuildMsg).rest }]))) := by
  refine ⟨?_, ?_, ?_, ?_⟩
  · intro e h
    simp only [WrapPayloadBuild, h]
  · intro m h ha
    simp only [WrapPayloadBuild, h, ha]
  · intro m m2 e h ha hd
    simp only [WrapPayloadBuild, h, ha, hd]
  · intro m m2 payloadBuildMsg h ha hd
    refine ⟨?_, ?_, ?_, ?_⟩
    · simp only [WrapPayloadBuild, h, ha, hd]
      split <;> [split; skip] <;> rfl
    · simp only [WrapPayloadBuild, h, ha, hd]
      split <;> [split; skip] <;> rfl
    · intro hnone
      refine ⟨{ Success := false, BuildMessage := "", Payload := none, rest := env.zeroRest },
        ?_, rfl⟩
      simp only [WrapPayloadBuild, h, ha, hd, hnone]
    · intro build hb
      refine ⟨?_, ?_, ?_⟩
      · intro hp
        simp only [WrapPayloadBuild, h, ha, hd, hb, hp]
      · intro p hp hu
        simp only [WrapPayloadBuild, h, ha, hd, hb, hp, hu]
      · intro p e hp hu
        simp only [WrapPayloadBuild, h, ha, hd, hb, hp, hu]

/-! ## The control skeleton of the workers and the system invariant -/

/-- The step function of `handleGenerateKeys` has the common control skeleton. -/
theorem handleGenerateKeys_shape {J : Type} (AllTranslationData : Registry J)
    (translationContainerName : String) :
    WorkerShape (handleGenerateKeys AllTranslationData translationContainerName)
      (helloGenerateKeys translationContainerName) where
  atOpen t := by cases h : t.openErr <;> simp [handleGenerateKeys, h]
  atHandshake t := by
    cases h : t.sendErr <;> simp [handleGenerateKeys, helloGenerateKeys, h]
  atRecvFail t h := by rcases h with h | h <;> simp [handleGenerateKeys, h]
  atRecvMsg t input h := by
    cases hreg : (AllTranslationData input.TranslationContainerName).GenerateEncryptionKeys
    · right
      simp [handleGenerateKeys, h, hreg]
    · left
      simp only [handleGenerateKeys, h, hreg]
      exact ⟨_, _, rfl⟩
  atRespond r t := by cases h : t.sendErr <;> simp [handleGenerateKeys, h]
  atSignal t := rfl
  atExiting t := rfl
  atReturned t := rfl

/-- The step function of `handleCustomToMythicFormat` has the common control skeleton. -/
theorem handleCustomToMythicFormat_shape {J : Type} (json : JsonLib J)
    (AllTranslationData : Registry J) (translationContainerName : String) :
    WorkerShape (handleCustomToMythicFormat json AllTranslationData translationContainerName)
      (helloCustomToMythic translationContainerName) where
  atOpen t := by cases h : t.openErr <;> simp [handleCustomToMythicFormat, h]
  atHandshake t := by
    cases h : t.sendErr <;> simp [handleCustomToMythicFormat, helloCustomToMythic, h]
  atRecvFail t h := by rcases h with h | h <;> simp [handleCustomToMythicFormat, h]
  atRecvMsg t input h := by
    cases hreg :
      (AllTranslationData input.TranslationContainerName).TranslateCustomToMythicFormat
    · right
      simp [handleCustomToMythicFormat, h, hreg]
    · left
      simp only [handleCustomToMythicFormat, h, hreg]
      exact ⟨_, _, rfl⟩
  atRespond r t := by cases h : t.sendErr <;> simp [handleCustomToMythicFormat, h]
  atSignal t := rfl
  atExiting t := rfl
  atReturned t := rfl

/-- The step function of `handleMythicToCustomFormat` has the common control skeleton. -/
theorem handleMythicToCustomFormat_shape {J : Type} (json : JsonLib J)
    (AllTranslationData : Registry J) (translationContainerName : String) :
    WorkerShape (handleMythicToCustomFormat json AllTranslationData translationContainerName)
      (helloMythicToCustom translationContainerName) where
  atOpen t := by cases h : t.openErr <;> simp [handleMythicToCustomFormat, h]
  atHandshake t := by
    cases h : t.sendErr <;> simp [handleMythicToCustomFormat, helloMythicToCustom, h]
  atRecvFail t h := by rcases h with h | h <;> simp [handleMythicToCustomFormat, h]
  atRecvMsg t input h := by
    cases hreg :
      (AllTranslationData input.TranslationContainerName).TranslateMythicToCustomFormat
    · right
      simp [handleMythicToCustomFormat, h, hreg]
    · left
      simp only [handleMythicToCustomFormat, h, hreg]
      exact ⟨_, _, rfl⟩
  atRespond r t := by cases h : t.sendErr <;> simp [handleMythicToCustomFormat, h]
  atSignal t := rfl
  atExiting t := rfl
  atReturned t := rfl

section generic
variable {Req Resp : Type}
  {step : WorkerPc Resp → Transport Req → WorkerPc Resp × List (Action Resp)} {hello : Resp}

/-- At the receive, a worker moves to the top of the outer loop, to the response send or to
    the channel write, and its actions start with the receive and contain no write. -/
theorem WorkerShape.atRecv (h : WorkerShape step hello) (t : Transport Req) :
    step .recv t = (.openStream, [.recv]) ∨
    (∃ r c, step .recv t = (.respond r, [.recv, .call c])) ∨
    step .recv t = (.signal, [.recv]) := by
  cases hr : t.recv with
  | msg input =>
    rcases h.atRecvMsg t input hr with h1 | h1
    · exact Or.inr (Or.inl h1)
    · exact Or.inr (Or.inr h1)
  | eof => exact Or.inl (h.atRecvFail t (Or.inl hr))
  | err => exact Or.inl (h.atRecvFail t (Or.inr hr))

/-- Once a worker is at or past its channel write it performs no further receive. -/
theorem WorkerShape.no_recv_after_signal (h : WorkerShape step hello) :
    ∀ (ts : List (Transport Req)) (pc : WorkerPc Resp),
      pc = .signal ∨ pc = .exiting ∨ pc = .returned →
      (runWorker step pc ts).2.any Action.isRecv = false
  | [], pc, _ => by simp [runWorker]
  | t :: ts, pc, hpc => by
    rcases hpc with rfl | rfl | rfl
    · have := h.no_recv_after_signal ts .exiting (Or.inr (Or.inl rfl))
      simp [runWorker, h.atSignal, Action.isRecv, this]
    · have := h.no_recv_after_signal ts .returned (Or.inr (Or.inr rfl))
      simp [runWorker, h.atExiting, Action.isRecv, this]
    · have := h.no_recv_after_signal ts .returned (Or.inr (Or.inr rfl))
      simp [runWorker, h.atReturned, this]

/-- Every worker with the common control skeleton recovers locally from stream failures. -/
theorem WorkerShape.recoversLocally (h : WorkerShape step hello) :
    RecoversLocally step hello := by
  refine ⟨h.atRecvFail, ?_, h.atOpen, h.atHandshake, ?_⟩
  · intro r t ht
    simp [h.atRespond, ht]
  · intro ts hts
    match ts with
    | [] => simp [runWorker] at hts
    | [t1] =>
      cases h1 : t1.openErr <;>
        simp [runWorker, h.atOpen, h1, Action.isRecv] at hts
    | t1 :: t2 :: rest =>
      cases h1 : t1.openErr
      · cases h2 : t2.sendErr
        · refine ⟨t1, t2, rest, rfl, h1, h2, ?_⟩
          simp [runWorker, h.atOpen, h.atHandshake, h1, h2]
        · have := h.no_recv_after_signal rest .signal (Or.inl rfl)
          simp [runWorker, h.atOpen, h.atHandshake, h1, h2, Action.isRecv, this] at hts
      · have := h.no_recv_after_signal (t2 :: rest) .signal (Or.inl rfl)
        simp only [runWorker, h.atOpen, h1] at hts this
        simp [Action.isRecv, this] at hts

/-- In every run of a worker, from any program counter, at most one channel write occurs, and
    none once the worker is past its write. -/
theorem WorkerShape.shutdown_count (h : WorkerShape step hello) :
    ∀ (ts : List (Transport Req)) (pc : WorkerPc Resp),
      (runWorker step pc ts).2.countP Action.isShutdown ≤ 1 ∧
      (pc = .exiting ∨ pc = .returned →
        (runWorker step pc ts).2.countP Action.isShutdown = 0)
  | [], pc => by simp [runWorker]
  | t :: ts, pc => by
    have ih := fun pc2 => h.shutdown_count ts pc2
    cases pc with
    | openStream =>
      have := (ih (if t.openErr then .signal else .handshake)).1
      simp [runWorker, h.atOpen, List.countP_cons, Action.isShutdown]
      simpa using this
    | handshake =>
      have := (ih (if t.sendErr then .signal else .recv)).1
      simp [runWorker, h.atHandshake, List.countP_cons, Action.isShutdown]
      simpa using this
    | recv =>
      rcases h.atRecv t with h1 | ⟨r, c, h1⟩ | h1
      · have := (ih .openStream).1
        simp [runWorker, h1, List.countP_cons, Action.isShutdown]
        simpa using this
      · have := (ih (.respond r)).1
        simp [runWorker, h1, List.countP_cons, Action.isShutdown]
        simpa using this
      · have := (ih .signal).1
        simp [runWorker, h1, List.countP_cons, Action.isShutdown]
        simpa using this
    | respond r =>
      have := (ih (if t.sendErr then .openStream else .recv)).1
      simp [runWorker, h.atRespond, List.countP_cons, Action.isShutdown]
      simpa using this
    | signal =>
      have := (ih .exiting).2 (Or.inl rfl)
      simp [runWorker, h.atSignal, List.countP_cons, Action.isShutdown, this]
    | exiting =>
      have := (ih .returned).2 (Or.inr rfl)
      simp [runWorker, h.atExiting, List.countP_cons, Action.isShutdown, this]
    | returned =>
      have := (ih .returned).2 (Or.inr rfl)
      simp [runWorker, h.atReturned, this]

end generic

section generic
variable {Req Resp : Type}
  {step : WorkerPc Resp → Transport Req → WorkerPc Resp × List (Action Resp)} {hello : Resp}

/-- Every enabled move of a worker inside the system is one of the moves of `WMove`. -/
theorem WorkerShape.move_phase (h : WorkerShape step hello) (sh sh2 : Shared)
    (slot : Option (WorkerPc Resp)) (t : Transport Req) (pc2 : WorkerPc Resp)
    (hm : workerMove step sh slot t = some (sh2, pc2)) :
    WMove sh (phase slot) sh2 (phase (some pc2)) := by
  cases slot with
  | none => simp [workerMove] at hm
  | some pc =>
    cases pc with
    | openStream =>
      simp only [workerMove, h.atOpen, Shared.effects, Shared.effect, Option.some_bind,
        Option.map_some', Option.some.injEq, Prod.mk.injEq] at hm
      obtain ⟨rfl, rfl⟩ := hm
      split <;> exact WMove.stay _
    | handshake =>
      simp only [workerMove, h.atHandshake, Shared.effects, Shared.effect, Option.some_bind,
        Option.map_some', Option.some.injEq, Prod.mk.injEq] at hm
      obtain ⟨rfl, rfl⟩ := hm
      split <;> exact WMove.stay _
    | recv =>
      rcases h.atRecv (t.through sh.connOpen) with h1 | ⟨r, c, h1⟩ | h1 <;>
      · simp only [workerMove, h1, Shared.effects, Shared.effect, Option.some_bind,
          Option.map_some', Option.some.injEq, Prod.mk.injEq] at hm
        obtain ⟨rfl, rfl⟩ := hm
        exact WMove.stay _
    | respond r =>
      simp only [workerMove, h.atRespond, Shared.effects, Shared.effect, Option.some_bind,
        Option.map_some', Option.some.injEq, Prod.mk.injEq] at hm
      obtain ⟨rfl, rfl⟩ := hm
      split <;> exact WMove.stay _
    | signal =>
      simp only [workerMove, h.atSignal, Shared.effects, Shared.effect] at hm
      cases hc : sh.chanClosed
      · by_cases hl : sh.chanLen < closedConnectionCap
        · simp [hc, hl] at hm
          obtain ⟨rfl, rfl⟩ := hm
          have := WMove.write sh hc hl
          simpa [hc, phase] using this
        · simp [hc, hl] at hm
      · simp [hc] at hm
        obtain ⟨rfl, rfl⟩ := hm
        have := WMove.writeClosed sh hc
        simpa [hc, phase] using this
    | exiting =>
      simp only [workerMove, h.atExiting, Shared.effects, Shared.effect] at hm
      by_cases hw : sh.wg = 0
      · simp [hw] at hm
        obtain ⟨rfl, rfl⟩ := hm
        have := WMove.doneZero sh hw
        simpa [hw, phase] using this
      · simp [hw] at hm
        obtain ⟨rfl, rfl⟩ := hm
        exact WMove.done _ hw
    | returned => simp [workerMove] at hm

end generic

/-- While a worker is active or between its write and its `wg.Done()`, the supervisor is
    inside a connect cycle. -/
theorem InvP.inCycle_of_running {sh : Shared} {a b c : Phase} (hI : InvP sh a b c)
    (hr : a.running = true ∨ b.running = true ∨ c.running = true) :
    sh.sup.inCycle = true := by
  cases h : sh.sup.inCycle
  · obtain ⟨ha, hb, hc⟩ := hI.idle h
    rcases hr with hr | hr | hr
    · rw [ha] at hr; cases hr
    · rw [hb] at hr; cases hr
    · rw [hc] at hr; cases hr
  · rfl

/-- The invariant is kept by a move of the first worker. -/
theorem InvP.moveA {sh sh2 : Shared} {a a2 b c : Phase} (hI : InvP sh a b c)
    (hm : WMove sh a sh2 a2) : InvP sh2 a2 b c := by
  cases hm with
  | stay => exact hI
  | write hc hl =>
    have hin := hI.inCycle_of_running (Or.inl rfl)
    have hcount := hI.count
    have hbuf := hI.buffer
    simp only [Phase.written] at hcount
    refine ⟨hI.noPanic, ?_, ?_, ?_, ?_, ?_, hI.startB, hI.startC, hI.takenLe, hI.takenOne, hI.takenZero, hI.joined⟩
    · show sh.written + 1 = _
      simp only [Phase.written]
      omega
    · show sh.chanLen + 1 + sh.taken = sh.written + 1
      omega
    · intro h
      exact hI.cycle h
    · intro h
      rw [hin] at h
      cases h
    · intro h
      exact absurd (hI.startA h).1 (by decide)
  | writeClosed hc =>
    have hin := hI.inCycle_of_running (Or.inl rfl)
    have := (hI.cycle hin).2
    rw [hc] at this
    cases this
  | done hw =>
    have hin := hI.inCycle_of_running (Or.inl rfl)
    have hcyc := hI.cycle hin
    simp only [Phase.pending] at hcyc
    refine ⟨hI.noPanic, hI.count, hI.buffer, ?_, ?_, ?_, hI.startB, hI.startC, hI.takenLe,
      hI.takenOne, hI.takenZero, ?_⟩
    · intro _
      refine ⟨?_, hcyc.2⟩
      show sh.wg - 1 = _
      simp only [Phase.pending]
      omega
    · intro h
      rw [hin] at h
      cases h
    · intro h
      exact absurd (hI.startA h).1 (by decide)
    · intro h
      exact absurd (hI.joined h) hw
  | doneZero hw =>
    have hin := hI.inCycle_of_running (Or.inl rfl)
    have hcyc := (hI.cycle hin).1
    simp only [Phase.pending] at hcyc
    omega

/-- The invariant is kept by a move of the second worker. -/
theorem InvP.moveB {sh sh2 : Shared} {a b b2 c : Phase} (hI : InvP sh a b c)
    (hm : WMove sh b sh2 b2) : InvP sh2 a b2 c := by
  cases hm with
  | stay => exact hI
  | write hc hl =>
    have hin := hI.inCycle_of_running (Or.inr (Or.inl rfl))
    have hcount := hI.count
    have hbuf := hI.buffer
    simp only [Phase.written] at hcount
    refine ⟨hI.noPanic, ?_, ?_, ?_, ?_, ?_, ?_, hI.startC, hI.takenLe, hI.takenOne, hI.takenZero, hI.joined⟩
    · show sh.written + 1 = _
      simp only [Phase.written]
      omega
    · show sh.chanLen + 1 + sh.taken = sh.written + 1
      omega
    · intro h
      exact hI.cycle h
    · intro h
      rw [hin] at h
      cases h
    · intro h
      exact absurd (hI.startA h).2.1 (by decide)
    · intro h
      exact absurd (hI.startB h).1 (by decide)
  | writeClosed hc =>
    have hin := hI.inCycle_of_running (Or.inr (Or.inl rfl))
    have := (hI.cycle hin).2
    rw [hc] at this
    cases this
  | done hw =>
    have hin := hI.inCycle_of_running (Or.inr (Or.inl rfl))
    have hcyc := hI.cycle hin
    simp only [Phase.pending] at hcyc
    refine ⟨hI.noPanic, hI.count, hI.buffer, ?_, ?_, ?_, ?_, hI.startC, hI.takenLe, hI.takenOne, hI.takenZero, ?_⟩
    · intro _
      refine ⟨?_, hcyc.2⟩
      show sh.wg - 1 = _
      simp only [Phase.pending]
      omega
    · intro h
      rw [hin] at h
      cases h
    · intro h
      exact absurd (hI.startA h).2.1 (by decide)
    · intro h
      exact absurd (hI.startB h).1 (by decide)
    · intro h
      exact absurd (hI.joined h) hw
  | doneZero hw =>
    have hin := hI.inCycle_of_running (Or.inr (Or.inl rfl))
    have hcyc := (hI.cycle hin).1
    simp only [Phase.pending] at hcyc
    omega

/-- The invariant is kept by a move of the third worker. -/
theorem InvP.moveC {sh sh2 : Shared} {a b c c2 : Phase} (hI : InvP sh a b c)
    (hm : WMove sh c sh2 c2) : InvP sh2 a b c2 := by
  cases hm with
  | stay => exact hI
  | write hc hl =>
    have hin := hI.inCycle_of_running (Or.inr (Or.inr rfl))
    have hcount := hI.count
    have hbuf := hI.buffer
    simp only [Phase.written] at hcount
    refine ⟨hI.noPanic, ?_, ?_, ?_, ?_, ?_, ?_, ?_, hI.takenLe, hI.takenOne, hI.takenZero, hI.joined⟩
    · show sh.written + 1 = _
      simp only [Phase.written]
      omega
    · show sh.chanLen + 1 + sh.taken = sh.written + 1
      omega
    · intro h
      exact hI.cycle h
    · intro h
      rw [hin] at h
      cases h
    · intro h
      exact absurd (hI.startA h).2.2 (by decide)
    · intro h
      exact absurd (hI.startB h).2 (by decide)
    · intro h
      exact absurd (hI.startC h) (by decide)
  | writeClosed hc =>
    have hin := hI.inCycle_of_running (Or.inr (Or.inr rfl))
    have := (hI.cycle hin).2
    rw [hc] at this
    cases this
  | done hw =>
    have hin := hI.inCycle_of_running (Or.inr (Or.inr rfl))
    have hcyc := hI.cycle hin
    simp only [Phase.pending] at hcyc
    refine ⟨hI.noPanic, hI.count, hI.buffer, ?_, ?_, ?_, ?_, ?_, hI.takenLe, hI.takenOne, hI.takenZero, ?_⟩
    · intro _
      refine ⟨?_, hcyc.2⟩
      show sh.wg - 1 = _
      simp only [Phase.pending]
      omega
    · intro h
      rw [hin] at h
      cases h
    · intro h
      exact absurd (hI.startA h).2.2 (by decide)
    · intro h
      exact absurd (hI.startB h).2 (by decide)
    · intro h
      exact absurd (hI.startC h) (by decide)
    · intro h
      exact absurd (hI.joined h) hw
  | doneZero hw =>
    have hin := hI.inCycle_of_running (Or.inr (Or.inr rfl))
    have hcyc := (hI.cycle hin).1
    simp only [Phase.pending] at hcyc
    omega

/-- The invariant holds at the entry of `Initialize`. -/
theorem Inv.init : Inv Sys.init :=
  { noPanic := rfl
    count := rfl
    buffer := rfl
    cycle := fun h => by cases h
    idle := fun _ => ⟨rfl, rfl, rfl⟩
    startA := fun h => by cases h
    startB := fun h => by cases h
    startC := fun h => by cases h
    takenLe := Nat.zero_le 1
    takenOne := fun h => by cases h
    takenZero := fun h => by cases h
    joined := fun h => by cases h }

/-- The invariant is kept by every step of the supervisor. -/
theorem Inv.supStep {s s2 : Sys} (hI : Inv s) (dialErr : Bool)
    (hs : supStep s dialErr = some s2) : Inv s2 := by
  rcases s with ⟨sh, gen, m2c, c2m⟩
  unfold Inv at hI ⊢
  simp only at hI
  unfold MythicContainer.supStep at hs
  simp only at hs
  split at hs
  next hsup =>
    -- dial
    split at hs
    · cases hs
      exact
        { noPanic := hI.noPanic
          count := hI.count
          buffer := hI.buffer
          cycle := fun h => by cases h
          idle := fun _ => hI.idle (by rw [hsup]; rfl)
          startA := fun h => by cases h
          startB := fun h => by cases h
          startC := fun h => by cases h
          takenLe := hI.takenLe
          takenOne := fun h => by cases h
          takenZero := fun h => by cases h
          joined := fun h => by cases h }
    · cases hs
      exact
        { noPanic := hI.noPanic
          count := rfl
          buffer := rfl
          cycle := fun _ => ⟨rfl, rfl⟩
          idle := fun h => by cases h
          startA := fun _ => ⟨rfl, rfl, rfl⟩
          startB := fun h => by cases h
          startC := fun h => by cases h
          takenLe := Nat.zero_le 1
          takenOne := fun h => by cases h
          takenZero := fun _ _ => rfl
          joined := fun h => by cases h }
  next hsup =>
    -- go handleGenerateKeys
    cases hs
    obtain ⟨ha, hb, hc⟩ := hI.startA hsup
    have hcyc := hI.cycle (by rw [hsup]; rfl)
    have htk := hI.takenZero (by rw [hsup]; rfl) (by rw [hsup]; rfl)
    have hcount := hI.count
    rw [ha] at hcyc hcount
    exact
      { noPanic := hI.noPanic
        count := hcount
        buffer := hI.buffer
        cycle := fun _ => hcyc
        idle := fun h => by cases h
        startA := fun h => by cases h
        startB := fun _ => ⟨hb, hc⟩
        startC := fun h => by cases h
        takenLe := hI.takenLe
        takenOne := fun h => by cases h
        takenZero := fun _ _ => htk
        joined := fun h => by cases h }
  next hsup =>
    -- go handleMythicToCustomFormat
    cases hs
    obtain ⟨hb, hc⟩ := hI.startB hsup
    have hcyc := hI.cycle (by rw [hsup]; rfl)
    have htk := hI.takenZero (by rw [hsup]; rfl) (by rw [hsup]; rfl)
    have hcount := hI.count
    rw [hb] at hcyc hcount
    exact
      { noPanic := hI.noPanic
        count := hcount
        buffer := hI.buffer
        cycle := fun _ => hcyc
        idle := fun h => by cases h
        startA := fun h => by cases h
        startB := fun h => by cases h
        startC := fun _ => hc
        takenLe := hI.takenLe
        takenOne := fun h => by cases h
        takenZero := fun _ _ => htk
        joined := fun h => by cases h }
  next hsup =>
    -- go handleCustomToMythicFormat
    cases hs
    have hc := hI.startC hsup
    have hcyc := hI.cycle (by rw [hsup]; rfl)
    have htk := hI.takenZero (by rw [hsup]; rfl) (by rw [hsup]; rfl)
    have hcount := hI.count
    rw [hc] at hcyc hcount
    exact
      { noPanic := hI.noPanic
        count := hcount
        buffer := hI.buffer
        cycle := fun _ => hcyc
        idle := fun h => by cases h
        startA := fun h => by cases h
        startB := fun h => by cases h
        startC := fun h => by cases h
        takenLe := hI.takenLe
        takenOne := fun h => by cases h
        takenZero := fun _ _ => htk
        joined := fun h => by cases h }
  next hsup =>
    -- receive from closedConnection
    have hcyc := hI.cycle (by rw [hsup]; rfl)
    have htk := hI.takenZero (by rw [hsup]; rfl) (by rw [hsup]; rfl)
    have hbuf := hI.buffer
    split at hs
    next hlen =>
      cases hs
      exact
        { noPanic := hI.noPanic
          count := hI.count
          buffer := by
            show sh.chanLen - 1 + (sh.taken + 1) = sh.written
            omega
          cycle := fun _ => hcyc
          idle := fun h => by cases h
          startA := fun h => by cases h
          startB := fun h => by cases h
          startC := fun h => by cases h
          takenLe := by
            show sh.taken + 1 ≤ 1
            omega
          takenOne := fun _ => by
            show sh.taken + 1 = 1
            omega
          takenZero := fun _ h => by cases h
          joined := fun h => by cases h }
    next hlen =>
      rw [hcyc.2] at hs
      simp at hs
  next hsup =>
    -- conn.Close()
    cases hs
    have hcyc := hI.cycle (by rw [hsup]; rfl)
    have htk := hI.takenOne (by rw [hsup]; rfl)
    exact
      { noPanic := hI.noPanic
        count := hI.count
        buffer := hI.buffer
        cycle := fun _ => hcyc
        idle := fun h => by cases h
        startA := fun h => by cases h
        startB := fun h => by cases h
        startC := fun h => by cases h
        takenLe := hI.takenLe
        takenOne := fun _ => htk
        takenZero := fun _ h => by cases h
        joined := fun h => by cases h }
  next hsup =>
    -- wg.Wait()
    have hcyc := hI.cycle (by rw [hsup]; rfl)
    have htk := hI.takenOne (by rw [hsup]; rfl)
    split at hs
    next hwg =>
      cases hs
      exact
        { noPanic := hI.noPanic
          count := hI.count
          buffer := hI.buffer
          cycle := fun _ => hcyc
          idle := fun h => by cases h
          startA := fun h => by cases h
          startB := fun h => by cases h
          startC := fun h => by cases h
          takenLe := hI.takenLe
          takenOne := fun _ => htk
          takenZero := fun _ h => by cases h
          joined := fun _ => hwg }
    next hwg => cases hs
  next hsup =>
    -- close(closedConnection)
    have hcyc := hI.cycle (by rw [hsup]; rfl)
    have hwg := hI.joined hsup
    rw [hcyc.2] at hs
    simp only [Bool.false_eq_true, if_false] at hs
    cases hs
    have hsum := hcyc.1
    rw [hwg] at hsum
    have hp : (phase gen).pending = 0 ∧ (phase m2c).pending = 0 ∧
        (phase c2m).pending = 0 := by omega
    have hret : ∀ p : Phase, p.pending = 0 → p.running = false := by
      intro p hp
      cases p <;> first | rfl | cases hp
    exact
      { noPanic := hI.noPanic
        count := hI.count
        buffer := hI.buffer
        cycle := fun h => by cases h
        idle := fun _ => ⟨hret _ hp.1, hret _ hp.2.1, hret _ hp.2.2⟩
        startA := fun h => by cases h
        startB := fun h => by cases h
        startC := fun h => by cases h
        takenLe := hI.takenLe
        takenOne := fun h => by cases h
        takenZero := fun h => by cases h
        joined := fun h => by cases h }
  next hsup =>
    -- time.Sleep
    cases hs
    exact
      { noPanic := hI.noPanic
        count := hI.count
        buffer := hI.buffer
        cycle := fun h => by cases h
        idle := fun _ => hI.idle (by rw [hsup]; rfl)
        startA := fun h => by cases h
        startB := fun h => by cases h
        startC := fun h => by cases h
        takenLe := hI.takenLe
        takenOne := fun h => by cases h
        takenZero := fun h => by cases h
        joined := fun h => by cases h }

/-- The invariant is kept by every step of the system. -/
theorem Inv.sysStep {J : Type} (cfg : Config J) {s s2 : Sys} (hI : Inv s) (c : Choice)
    (hs : sysStep cfg s c = some s2) : Inv s2 := by
  unfold MythicContainer.sysStep at hs
  split at hs
  · cases hs
  · cases c with
    | sup dialErr => exact hI.supStep dialErr hs
    | generateKeys t =>
      simp only [Option.map_eq_some'] at hs
      obtain ⟨⟨sh2, pc2⟩, hm, rfl⟩ := hs
      exact InvP.moveA hI ((handleGenerateKeys_shape _ _).move_phase _ _ _ _ _ hm)
    | mythicToCustom t =>
      simp only [Option.map_eq_some'] at hs
      obtain ⟨⟨sh2, pc2⟩, hm, rfl⟩ := hs
      exact InvP.moveB hI ((handleMythicToCustomFormat_shape _ _ _).move_phase _ _ _ _ _ hm)
    | customToMythic t =>
      simp only [Option.map_eq_some'] at hs
      obtain ⟨⟨sh2, pc2⟩, hm, rfl⟩ := hs
      exact InvP.moveC hI ((handleCustomToMythicFormat_shape _ _ _).move_phase _ _ _ _ _ hm)

/-- The invariant is kept along every schedule. -/
theorem Inv.sysRun {J : Type} (cfg : Config J) :
    ∀ (cs : List Choice) (s s2 : Sys), Inv s → sysRun cfg s cs = some s2 → Inv s2
  | [], s, s2, hI, hs => by
    simp only [MythicContainer.sysRun, Option.some.injEq] at hs
    exact hs ▸ hI
  | c :: cs, s, s2, hI, hs => by
    simp only [MythicContainer.sysRun, Option.bind_eq_some] at hs
    obtain ⟨s1, h1, h2⟩ := hs
    exact Inv.sysRun cfg cs s1 s2 (hI.sysStep cfg c h1) h2

/-- The invariant holds in every reachable state. -/
theorem Reachable.inv {J : Type} {cfg : Config J} {s : Sys} (h : Reachable cfg s) : Inv s := by
  obtain ⟨cs, hcs⟩ := h
  exact Inv.sysRun cfg cs _ _ Inv.init hcs

section generic
variable {Req Resp : Type}
  {step : WorkerPc Resp → Transport Req → WorkerPc Resp × List (Action Resp)} {hello : Resp}

/-- Every worker with the common control skeleton writes at most once and then returns. -/
theorem WorkerShape.writesThenReturns (h : WorkerShape step hello) :
    WritesThenReturns step := by
  refine ⟨?_, h.atSignal, h.atExiting, h.atReturned, fun ts pc => (h.shutdown_count ts pc).1⟩
  intro pc t hw
  cases pc with
  | openStream => simp [h.atOpen, Action.isShutdown] at hw
  | handshake => simp [h.atHandshake, Action.isShutdown] at hw
  | recv =>
    rcases h.atRecv t with h1 | ⟨r, c, h1⟩ | h1 <;> simp [h1, Action.isShutdown] at hw
  | respond r => simp [h.atRespond, Action.isShutdown] at hw
  | signal => rfl
  | exiting => simp [h.atExiting, Action.isShutdown] at hw
  | returned => simp [h.atReturned] at hw

/-- A worker at its channel write moves whenever the channel is open and has room. -/
theorem WorkerShape.move_signal (h : WorkerShape step hello) (sh : Shared) (t : Transport Req)
    (hc : sh.chanClosed = false) (hl : sh.chanLen < closedConnectionCap) :
    workerMove step sh (some .signal) t
      = some ({ sh with chanLen := sh.chanLen + 1, written := sh.written + 1 }, .exiting) := by
  simp [workerMove, h.atSignal, Shared.effects, Shared.effect, hc, hl]

/-- A worker past its write moves whenever the wait-group counter is positive. -/
theorem WorkerShape.move_exiting (h : WorkerShape step hello) (sh : Shared) (t : Transport Req)
    (hw : sh.wg ≠ 0) :
    workerMove step sh (some .exiting) t = some ({ sh with wg := sh.wg - 1 }, .returned) := by
  simp [workerMove, h.atExiting, Shared.effects, Shared.effect, hw]

end generic

/-- A worker move changes neither the supervisor's program counter nor the number of
    Connections created. -/
theorem WMove.frame {sh sh2 : Shared} {a a2 : Phase} (hm : WMove sh a sh2 a2) :
    sh2.sup = sh.sup ∧ sh2.dials = sh.dials := by
  cases hm <;> exact ⟨rfl, rfl⟩

/-- Only a returned worker contributes nothing to the wait-group counter. -/
theorem phase_pending_zero {Resp : Type} (slot : Option (WorkerPc Resp))
    (h : (phase slot).pending = 0) : slot = some .returned := by
  cases slot with
  | none => cases h
  | some pc => cases pc <;> first | rfl | cases h

/-- Only an empty slot is in the phase `notStarted`. -/
theorem phase_notStarted {Resp : Type} (slot : Option (WorkerPc Resp))
    (h : phase slot = .notStarted) : slot = none := by
  cases slot with
  | none => rfl
  | some pc => cases pc <;> cases h

/-- A supervisor choice in a state without panic is a step of `supStep`. -/
theorem sysStep_sup {J : Type} (cfg : Config J) (s : Sys) (d : Bool)
    (hp : s.sh.panicked = false) : sysStep cfg s (.sup d) = supStep s d := by
  simp [sysStep, hp]

/-- A `generateKeys` choice in a state without panic is a move of that worker. -/
theorem sysStep_generateKeys {J : Type} (cfg : Config J) (s : Sys)
    (t : Transport services.TrGenerateEncryptionKeysMessage) (hp : s.sh.panicked = false) :
    sysStep cfg s (.generateKeys t)
      = (workerMove (handleGenerateKeys cfg.AllTranslationData cfg.translationContainerName)
          s.sh s.gen t).map fun r => { s with sh := r.1, gen := some r.2 } := by
  simp [sysStep, hp]

/-- A `mythicToCustom` choice in a state without panic is a move of that worker. -/
theorem sysStep_mythicToCustom {J : Type} (cfg : Config J) (s : Sys)
    (t : Transport services.TrMythicC2ToCustomMessageFormatMessage)
    (hp : s.sh.panicked = false) :
    sysStep cfg s (.mythicToCustom t)
      = (workerMove
          (handleMythicToCustomFormat cfg.json cfg.AllTranslationData
            cfg.translationContainerName)
          s.sh s.m2c t).map fun r => { s with sh := r.1, m2c := some r.2 } := by
  simp [sysStep, hp]

/-- A `customToMythic` choice in a state without panic is a move of that worker. -/
theorem sysStep_customToMythic {J : Type} (cfg : Config J) (s : Sys)
    (t : Transport services.TrCustomMessageToMythicC2FormatMessage)
    (hp : s.sh.panicked = false) :
    sysStep cfg s (.customToMythic t)
      = (workerMove
          (handleCustomToMythicFormat cfg.json cfg.AllTranslationData
            cfg.translationContainerName)
          s.sh s.c2m t).map fun r => { s with sh := r.1, c2m := some r.2 } := by
  simp [sysStep, hp]

/-- With the wait-group counter at zero inside a cycle, all three workers have returned. -/
theorem Inv.allReturned_of_wg_zero {s : Sys} (hI : Inv s) (hin : s.sh.sup.inCycle = true)
    (hwg : s.sh.wg = 0) : s.allReturned := by
  have hsum := (hI.cycle hin).1
  rw [hwg] at hsum
  have hp : (phase s.gen).pending = 0 ∧ (phase s.m2c).pending = 0 ∧
      (phase s.c2m).pending = 0 := by omega
  exact ⟨phase_pending_zero _ hp.1, phase_pending_zero _ hp.2.1, phase_pending_zero _ hp.2.2⟩

/-- C4: in each of the three workers, a receive that returns end-of-stream or any other
    error, and a failed send of a response, take the worker to the top of its outer loop
    with no write to the shutdown channel and no return; its next call is the stream open of
    its own capability and, once that succeeds, the send of the handshake carrying the
    configured container name; in every run from there a receive occurs only after that
    handshake send has succeeded. -/
theorem workers_recover_locally {J : Type} (json : JsonLib J)
    (AllTranslationData : Registry J) (translationContainerName : String) :
    RecoversLocally (handleGenerateKeys AllTranslationData translationContainerName)
      (helloGenerateKeys translationContainerName) ∧
    RecoversLocally
      (handleMythicToCustomFormat json AllTranslationData translationContainerName)
      (helloMythicToCustom translationContainerName) ∧
    RecoversLocally
      (handleCustomToMythicFormat json AllTranslationData translationContainerName)
      (helloCustomToMythic translationContainerName) ∧
    (helloGenerateKeys translationContainerName).TranslationContainerName
      = translationContainerName ∧
    (helloMythicToCustom translationContainerName).TranslationContainerName
      = translationContainerName ∧
    (helloCustomToMythic translationContainerName).TranslationContainerName
      = translationContainerName :=
  ⟨(handleGenerateKeys_shape _ _).recoversLocally,
   (handleMythicToCustomFormat_shape _ _ _).recoversLocally,
   (handleCustomToMythicFormat_shape _ _ _).recoversLocally, rfl, rfl, rfl⟩

/-- C7, as stated, fails: in the connect cycle `sampleSchedule` the stream open of
    `handleGenerateKeys` fails (after nine steps it stands at its channel write), and when
    the supervisor's join completes three writes to the shutdown channel have occurred, not
    one. -/
theorem one_signal_per_cycle_fails :
    (sysRun sampleConfig Sys.init (sampleSchedule.take 9)).map (fun s => s.gen)
      = some (some .signal) ∧
    sysRun sampleConfig Sys.init sampleSchedule = some sampleJoined ∧
    sampleJoined.sh.sup = .closeChan ∧
    sampleJoined.sh.written = 3 ∧
    sampleJoined.sh.written ≠ 1 := by
  refine ⟨by rfl, by rfl, rfl, rfl, by decide⟩

/-- C7, amended: in every connect cycle, at the point where the supervisor's join has
    completed, exactly three writes to the shutdown channel have occurred in that cycle, all
    three workers have returned, and the supervisor has taken exactly one of the three values
    (two remain buffered). -/
theorem three_signals_at_join {J : Type} (cfg : Config J) (s : Sys)
    (hr : Reachable cfg s) (hj : s.sh.sup = .closeChan) :
    s.sh.written = 3 ∧ s.allReturned ∧ s.sh.taken = 1 ∧ s.sh.chanLen = 2 := by
  have hI := hr.inv
  have hall := hI.allReturned_of_wg_zero (by rw [hj]; rfl) (hI.joined hj)
  have hcount := hI.count
  have hbuf := hI.buffer
  have htk := hI.takenOne (by rw [hj]; rfl)
  obtain ⟨h1, h2, h3⟩ := hall
  rw [h1, h2, h3] at hcount
  simp only [phase, Phase.written] at hcount
  exact ⟨hcount, ⟨h1, h2, h3⟩, htk, by omega⟩

/-- C7, amended, at the end of the cycle `sampleSchedule`. -/
theorem three_signals_at_join_witness :
    Reachable sampleConfig sampleJoined ∧ sampleJoined.sh.sup = .closeChan ∧
    (sampleJoined.sh.written = 3 ∧ sampleJoined.allReturned ∧ sampleJoined.sh.taken = 1 ∧
      sampleJoined.sh.chanLen = 2) :=
  ⟨⟨sampleSchedule, by rfl⟩, rfl,
    three_signals_at_join sampleConfig sampleJoined ⟨sampleSchedule, by rfl⟩ rfl⟩

/-- C8: in every reachable state the supervisor's next step follows the order dial, start
    of the three workers (wait-group counter 3), receive of one value from the shutdown
    channel, close of the Connection, join of all three workers, close of the channel, sleep,
    dial; no Connection is dialled while a worker is running, the channel is closed only with
    all workers returned, and no worker ever writes to a closed channel. -/
theorem supervisor_teardown_order {J : Type} (cfg : Config J) (s : Sys)
    (hr : Reachable cfg s) : TeardownOrder cfg s := by
  have hI := hr.inv
  have hp := hI.noPanic
  have hidle : s.sh.sup.inCycle = false → s.noneRunning := fun h => hI.idle h
  refine ⟨?_, ?_, ?_, ?_, ?_, ?_, hp⟩
  · intro d s2 hs
    rw [sysStep_sup cfg s d hp] at hs
    unfold supStep at hs
    split at hs
    next hsup =>
      -- dial
      split at hs
      next hd =>
        cases hs
        refine ⟨Or.inr ⟨hd, hsup, rfl⟩, ?_, ?_, ?_, ?_, ?_, ?_, ?_, ?_, ?_⟩ <;>
          first
            | (intro h; exact absurd hsup h)
            | (intro _ h; rw [hd] at h; cases h)
            | (intro h; rw [hsup] at h; cases h)
      next hd =>
        cases hs
        refine ⟨Or.inl (by simp [supOrder, hsup]), ?_, ?_, ?_, ?_, ?_, ?_, ?_, ?_, ?_⟩ <;>
          first
            | (intro h; exact absurd hsup h)
            | (intro _ _;
               exact ⟨hidle (by rw [hsup]; rfl), rfl, rfl, rfl, rfl, rfl, rfl, rfl, rfl, rfl⟩)
            | (intro h; rw [hsup] at h; cases h)
    next hsup =>
      cases hs
      have hs0 := hI.startA hsup
      refine ⟨Or.inl (by simp [supOrder, hsup]), ?_, ?_, ?_, ?_, ?_, ?_, ?_, ?_, ?_⟩ <;>
        first
          | (intro _; rfl)
          | (intro _; exact ⟨phase_notStarted _ hs0.1, rfl, rfl, rfl⟩)
          | (intro h; rw [hsup] at h; cases h)
    next hsup =>
      cases hs
      have hs0 := hI.startB hsup
      refine ⟨Or.inl (by simp [supOrder, hsup]), ?_, ?_, ?_, ?_, ?_, ?_, ?_, ?_, ?_⟩ <;>
        first
          | (intro _; rfl)
          | (intro _; exact ⟨phase_notStarted _ hs0.1, rfl, rfl, rfl⟩)
          | (intro h; rw [hsup] at h; cases h)
    next hsup =>
      cases hs
      have hs0 := hI.startC hsup
      refine ⟨Or.inl (by simp [supOrder, hsup]), ?_, ?_, ?_, ?_, ?_, ?_, ?_, ?_, ?_⟩ <;>
        first
          | (intro _; rfl)
          | (intro _; exact ⟨phase_notStarted _ hs0, rfl, rfl, rfl⟩)
          | (intro h; rw [hsup] at h; cases h)
    next hsup =>
      have hcyc := hI.cycle (by rw [hsup]; rfl)
      have htk := hI.takenZero (by rw [hsup]; rfl) (by rw [hsup]; rfl)
      split at hs
      next hlen =>
        cases hs
        refine ⟨Or.inl (by simp [supOrder, hsup]), ?_, ?_, ?_, ?_, ?_, ?_, ?_, ?_, ?_⟩ <;>
          first
            | (intro _; rfl)
            | (intro _
               refine ⟨htk, ?_, ?_, rfl⟩
               · show s.sh.taken + 1 = 1
                 omega
               · show s.sh.chanLen - 1 + 1 = s.sh.chanLen
                 omega)
            | (intro h; rw [hsup] at h; cases h)
      next hlen =>
        rw [hcyc.2] at hs
        simp at hs
    next hsup =>
      cases hs
      refine ⟨Or.inl (by simp [supOrder, hsup]), ?_, ?_, ?_, ?_, ?_, ?_, ?_, ?_, ?_⟩ <;>
        first
          | (intro _; rfl)
          | (intro h; rw [hsup] at h; cases h)
    next hsup =>
      have hcyc := hI.cycle (by rw [hsup]; rfl)
      split at hs
      next hwg =>
        cases hs
        have hall := hI.allReturned_of_wg_zero (by rw [hsup]; rfl) hwg
        refine ⟨Or.inl (by simp [supOrder, hsup]), ?_, ?_, ?_, ?_, ?_, ?_, ?_, ?_, ?_⟩ <;>
          first
            | (intro _; rfl)
            | (intro _; exact ⟨hall, hcyc.2⟩)
            | (intro h; rw [hsup] at h; cases h)
      next hwg => cases hs
    next hsup =>
      have hcyc := hI.cycle (by rw [hsup]; rfl)
      have hall := hI.allReturned_of_wg_zero (by rw [hsup]; rfl) (hI.joined hsup)
      rw [hcyc.2] at hs
      simp only [Bool.false_eq_true, if_false] at hs
      cases hs
      refine ⟨Or.inl (by simp [supOrder, hsup]), ?_, ?_, ?_, ?_, ?_, ?_, ?_, ?_, ?_⟩ <;>
        first
          | (intro _; rfl)
          | (intro _; exact ⟨hall, rfl⟩)
          | (intro h; rw [hsup] at h; cases h)
    next hsup =>
      cases hs
      refine ⟨Or.inl (by simp [supOrder, hsup]), ?_, ?_, ?_, ?_, ?_, ?_, ?_, ?_, ?_⟩ <;>
        first
          | (intro _; rfl)
          | (intro h; rw [hsup] at h; cases h)
  · intro t s2 hs
    rw [sysStep_generateKeys cfg s t hp] at hs
    simp only [Option.map_eq_some'] at hs
    obtain ⟨⟨sh2, pc2⟩, hm, rfl⟩ := hs
    exact ((handleGenerateKeys_shape _ _).move_phase _ _ _ _ _ hm).frame
  · intro t s2 hs
    rw [sysStep_mythicToCustom cfg s t hp] at hs
    simp only [Option.map_eq_some'] at hs
    obtain ⟨⟨sh2, pc2⟩, hm, rfl⟩ := hs
    exact ((handleMythicToCustomFormat_shape _ _ _).move_phase _ _ _ _ _ hm).frame
  · intro t s2 hs
    rw [sysStep_customToMythic cfg s t hp] at hs
    simp only [Option.map_eq_some'] at hs
    obtain ⟨⟨sh2, pc2⟩, hm, rfl⟩ := hs
    exact ((handleCustomToMythicFormat_shape _ _ _).move_phase _ _ _ _ _ hm).frame
  · intro h
    apply hidle
    rcases h with h | h <;> rw [h] <;> rfl
  · intro h
    apply hidle
    cases hin : s.sh.sup.inCycle
    · rfl
    · have := (hI.cycle hin).2
      rw [h] at this
      cases this

/-- A worker has written at most once in any phase. -/
theorem Phase.written_le_one (p : Phase) : p.written ≤ 1 := by
  cases p <;> decide

/-- A worker slot at the channel write can perform it: the channel is open and not full. -/
theorem InvP.room_at_signal {sh : Shared} {a b c : Phase} (hI : InvP sh a b c)
    (h : a = .active ∨ b = .active ∨ c = .active) :
    sh.chanClosed = false ∧ sh.chanLen < closedConnectionCap := by
  have hin : sh.sup.inCycle = true := by
    apply hI.inCycle_of_running
    rcases h with h | h | h <;> rw [h] <;> simp [Phase.running]
  have hcount := hI.count
  have hbuf := hI.buffer
  have ha := a.written_le_one
  have hb := b.written_le_one
  have hc := c.written_le_one
  refine ⟨(hI.cycle hin).2, ?_⟩
  have : closedConnectionCap = 3 := rfl
  have h0 : Phase.active.written = 0 := rfl
  rcases h with h | h | h <;> subst h <;> omega

/-- A worker slot past its write finds the wait-group counter positive. -/
theorem InvP.wg_pos_at_exiting {sh : Shared} {a b c : Phase} (hI : InvP sh a b c)
    (h : a = .wrote ∨ b = .wrote ∨ c = .wrote) : sh.wg ≠ 0 := by
  have hin : sh.sup.inCycle = true := by
    apply hI.inCycle_of_running
    rcases h with h | h | h <;> rw [h] <;> simp [Phase.running]
  have hcyc := (hI.cycle hin).1
  have h1 : Phase.wrote.pending = 1 := rfl
  rcases h with h | h | h <;> subst h <;> omega

/-- C9: in every run of each worker a write to the shutdown channel is followed at once by
    the return, so a worker writes at most once; in every reachable state the number of
    values ever written to the channel of the current cycle is at most 3, its capacity, so a
    worker at its write is never blocked although the supervisor takes only one value, and
    every worker that has written reaches `wg.Done()`. -/
theorem shutdown_channel_never_blocks {J : Type} (cfg : Config J) (s : Sys)
    (hr : Reachable cfg s) : ChannelNeverBlocks cfg s := by
  have hI := hr.inv
  have hp := hI.noPanic
  have hcount := hI.count
  have hbuf := hI.buffer
  have ha := (phase s.gen).written_le_one
  have hb := (phase s.m2c).written_le_one
  have hc := (phase s.c2m).written_le_one
  have hcap : closedConnectionCap = 3 := rfl
  refine ⟨(handleGenerateKeys_shape _ _).writesThenReturns,
    (handleMythicToCustomFormat_shape _ _ _).writesThenReturns,
    (handleCustomToMythicFormat_shape _ _ _).writesThenReturns,
    rfl, by omega, by omega, hI.takenLe, ?_, ?_, ?_, ?_, ?_, ?_⟩
  · intro t hs
    obtain ⟨h1, h2⟩ := hI.room_at_signal (Or.inl (by rw [hs]; rfl))
    rw [sysStep_generateKeys cfg s t hp, hs,
      (handleGenerateKeys_shape _ _).move_signal s.sh t h1 h2]
    exact ⟨_, rfl, rfl, rfl, rfl, hp⟩
  · intro t hs
    obtain ⟨h1, h2⟩ := hI.room_at_signal (Or.inr (Or.inl (by rw [hs]; rfl)))
    rw [sysStep_mythicToCustom cfg s t hp, hs,
      (handleMythicToCustomFormat_shape _ _ _).move_signal s.sh t h1 h2]
    exact ⟨_, rfl, rfl, rfl, rfl, hp⟩
  · intro t hs
    obtain ⟨h1, h2⟩ := hI.room_at_signal (Or.inr (Or.inr (by rw [hs]; rfl)))
    rw [sysStep_customToMythic cfg s t hp, hs,
      (handleCustomToMythicFormat_shape _ _ _).move_signal s.sh t h1 h2]
    exact ⟨_, rfl, rfl, rfl, rfl, hp⟩
  · intro t hs
    have hw := hI.wg_pos_at_exiting (Or.inl (by rw [hs]; rfl))
    rw [sysStep_generateKeys cfg s t hp, hs,
      (handleGenerateKeys_shape _ _).move_exiting s.sh t hw]
    refine ⟨_, rfl, rfl, ?_, hp⟩
    show s.sh.wg - 1 + 1 = s.sh.wg
    omega
  · intro t hs
    have hw := hI.wg_pos_at_exiting (Or.inr (Or.inl (by rw [hs]; rfl)))
    rw [sysStep_mythicToCustom cfg s t hp, hs,
      (handleMythicToCustomFormat_shape _ _ _).move_exiting s.sh t hw]
    refine ⟨_, rfl, rfl, ?_, hp⟩
    show s.sh.wg - 1 + 1 = s.sh.wg
    omega
  · intro t hs
    have hw := hI.wg_pos_at_exiting (Or.inr (Or.inr (by rw [hs]; rfl)))
    rw [sysStep_customToMythic cfg s t hp, hs,
      (handleCustomToMythicFormat_shape _ _ _).move_exiting s.sh t hw]
    refine ⟨_, rfl, rfl, ?_, hp⟩
    show s.sh.wg - 1 + 1 = s.sh.wg
    omega

/-- C9 at the state `sampleSignalling`, where `handleGenerateKeys` is at its write. -/
theorem shutdown_channel_never_blocks_witness :
    Reachable sampleConfig sampleSignalling ∧ ChannelNeverBlocks sampleConfig sampleSignalling :=
  ⟨⟨sampleSchedule.take 9, by rfl⟩,
    shutdown_channel_never_blocks sampleConfig sampleSignalling
      ⟨sampleSchedule.take 9, by rfl⟩⟩

/-- C8 at the end of the cycle `sampleSchedule`, where the join has completed. -/
theorem supervisor_teardown_order_witness :
    Reachable sampleConfig sampleJoined ∧ TeardownOrder sampleConfig sampleJoined :=
  ⟨⟨sampleSchedule, by rfl⟩,
    supervisor_teardown_order sampleConfig sampleJoined ⟨sampleSchedule, by rfl⟩⟩

end MythicContainer
